import Mathlib

/-!
Verification of the citation-management core of the DeepTutor repository
(`src/agents/research/utils/citation_manager.py`).

The Python code is shallowly embedded: Python strings are Lean `String`s
(ASCII fragment; `str.lower`, `str.strip`, `int(...)` are modelled on the
ASCII alphabet actually used by the citation ids and tool types), Python
dicts are insertion-ordered association lists `List (String × β)`, Python
ints are `Int`, and fallible operations (attribute access on the tool
trace, `json.loads`, file writes) are modelled by `Option`/`Except`
values and an explicit success flag.  All definitions are executable.
-/

namespace CitationMgr

/-! ### Python string primitives -/

/-- Python whitespace test, restricted to the ASCII whitespace characters
(space, tab, newline, carriage return, vertical tab, form feed). -/
def isPySpace (c : Char) : Bool :=
  c == ' ' || c == '\t' || c == '\n' || c == '\r' ||
  c == (Char.ofNat 11) || c == (Char.ofNat 12)

/-- ASCII digit test (`'0'` to `'9'`), used by the model of `int(...)`. -/
def isDigitC (c : Char) : Bool :=
  48 ≤ c.toNat && c.toNat ≤ 57

/-- ASCII uppercase test (`'A'` to `'Z'`), used by the `[A-Z]+` regex atom. -/
def isUpperAZ (c : Char) : Bool :=
  65 ≤ c.toNat && c.toNat ≤ 90

/-- Python `str.strip()` on a character list: drop ASCII whitespace on both ends. -/
def pyStripChars (cs : List Char) : List Char :=
  ((cs.dropWhile isPySpace).reverse.dropWhile isPySpace).reverse

/-- Python `str.strip()`. -/
def pyStrip (s : String) : String :=
  ⟨pyStripChars s.data⟩

/-- Python `str.lower()` (ASCII letters only). -/
def pyLower (s : String) : String :=
  ⟨s.data.map Char.toLower⟩

/-- Python `str.split(sep)` for a one-character separator, on character
lists: splits at every occurrence and keeps empty pieces. -/
def pySplitChars (sep : Char) : List Char → List (List Char)
  | [] => [[]]
  | c :: cs =>
    match pySplitChars sep cs with
    | [] => [[]]
    | g :: gs => if c = sep then [] :: g :: gs else (c :: g) :: gs

/-- Python `str.split(sep)` for a one-character separator. -/
def pySplit (s : String) (sep : Char) : List String :=
  (pySplitChars sep s.data).map (fun cs => (⟨cs⟩ : String))

/-- Python `str.startswith(pre)`. -/
def pyStartsWith (s pre : String) : Bool :=
  pre.data.isPrefixOf s.data

/-- Python slicing `s[:n]`. -/
def pyTakeStr (n : Nat) (s : String) : String :=
  ⟨s.data.take n⟩

/-- Worker for `str.replace(old, new)` with all (non-overlapping,
left-to-right) occurrences replaced; `fuel` bounds the recursion by the
length of the scanned list. -/
def pyReplaceCharsAux (pat rep : List Char) : Nat → List Char → List Char
  | _, [] => []
  | 0, cs => cs
  | fuel + 1, c :: cs =>
    if pat.isPrefixOf (c :: cs) then
      rep ++ pyReplaceCharsAux pat rep fuel (List.drop pat.length (c :: cs))
    else
      c :: pyReplaceCharsAux pat rep fuel cs

/-- Python `str.replace(old, new)` on character lists (used with non-empty
`old` only, as in the source). -/
def pyReplaceChars (cs pat rep : List Char) : List Char :=
  pyReplaceCharsAux pat rep cs.length cs

/-- Python `str.replace(old, new)`. -/
def pyReplace (s pat rep : String) : String :=
  ⟨pyReplaceChars s.data pat.data rep.data⟩

/-! ### Decimal formatting and `int(...)` parsing -/

/-- The ASCII character of a decimal digit. -/
def digitChar (d : Nat) : Char := Char.ofNat (48 + d)

/-- Decimal digit characters of a positive number, most significant first;
`fuel` bounds the recursion (any `fuel ≥ n` gives the digits of `n`). -/
def natCharsAux : Nat → Nat → List Char
  | 0, _ => []
  | fuel + 1, n => if n = 0 then [] else natCharsAux fuel (n / 10) ++ [digitChar (n % 10)]

/-- Decimal representation of a natural number (Python `str(n)` for `n ≥ 0`). -/
def natChars (n : Nat) : List Char :=
  if n = 0 then ['0'] else natCharsAux n n

/-- Python `str(n)` for a natural number. -/
def natStr (n : Nat) : String := ⟨natChars n⟩

/-- Python `str(z)` for an integer. -/
def intStr (z : Int) : String :=
  if z < 0 then "-" ++ natStr z.natAbs else natStr z.toNat

/-- Python `f"{z:02d}"`: decimal representation zero-padded to width 2
(a negative number already has width ≥ 2, so it is never padded). -/
def format02 (z : Int) : String :=
  if z < 0 then "-" ++ natStr z.natAbs
  else if z.toNat < 10 then "0" ++ natStr z.toNat
  else natStr z.toNat

/-- Numeric value of an ASCII digit character. -/
def charVal (c : Char) : Nat := c.toNat - 48

/-- Decimal value accumulator over digit characters. -/
def parseNatAux : Nat → List Char → Nat
  | acc, [] => acc
  | acc, c :: cs => parseNatAux (acc * 10 + charVal c) cs

/-- Decimal value of a digit-character list. -/
def parseNat (cs : List Char) : Nat := parseNatAux 0 cs

/-- Digit-group test for `int(...)`: splitting at underscores, every group
must be non-empty and all ASCII digits (Python allows `_` separators
between digit groups). -/
def pyDigitGroupsOk (cs : List Char) : Bool :=
  (pySplitChars '_' cs).all (fun g => !g.isEmpty && g.all isDigitC)

/-- Unsigned part of `int(...)`: validate digit groups, then read the
digits with the underscores removed. -/
def natPart? (cs : List Char) : Option Int :=
  if pyDigitGroupsOk cs then
    some ((parseNat (pySplitChars '_' cs).flatten : Nat) : Int)
  else none

/-- Sign handling of `int(...)`: an optional leading `+` or `-` followed by
the unsigned digit part. -/
def pyIntSigned (cs : List Char) : Option Int :=
  match cs with
  | [] => none
  | c :: rest =>
    if c = '+' then natPart? rest
    else if c = '-' then (natPart? rest).map (fun n => -n)
    else natPart? (c :: rest)

/-- Python `int(s)` on a character list, as an `Option` (`none` models the
raised `ValueError`): strip whitespace, optional sign, ASCII digits with
optional underscore separators. -/
def pyIntChars? (cs0 : List Char) : Option Int :=
  pyIntSigned (pyStripChars cs0)

/-- Python `int(s)` (`none` models the raised `ValueError`). -/
def pyInt? (s : String) : Option Int := pyIntChars? s.data

/-- The id string produced for a planning counter value, `f"PLAN-{c:02d}"`. -/
def planIdStr (c : Int) : String := "PLAN-" ++ format02 c

/-- The id string produced for a research block/counter pair,
`f"CIT-{block_num}-{counter:02d}"`. -/
def citIdStr (b : Int) (k : Int) : String := "CIT-" ++ intStr b ++ "-" ++ format02 k

/-! ### Data model

Citation records are the dictionaries built by the extraction helpers of
`CitationManager`.  They are modelled as structures whose fields carry the
values read back by the manager through `dict.get(key, default)`: an absent
key is identified with its default (`""`, `[]`), which is exactly how every
reader in the source accesses these dictionaries.  Payload fields hold
strings, as produced by well-formed tool answers (arbitrary non-string JSON
values leaking into these fields would make the Python dedup code raise and
are outside the model). -/

/-- A processed paper entry of a `paper_search` citation. -/
structure Paper where
  title : String := ""
  authors : String := ""
  authors_list : List String := []
  year : String := ""
  url : String := ""
  arxiv_id : String := ""
  abstract : String := ""
  doi : String := ""
  venue : String := ""
deriving DecidableEq, Inhabited

/-- A processed web source of a `web_search` citation. -/
structure WebSource where
  title : String := ""
  url : String := ""
  snippet : String := ""
  domain : String := ""
deriving DecidableEq, Inhabited

/-- A processed source document of a RAG citation. -/
structure RagSource where
  title : String := ""
  content_preview : String := ""
  source_file : String := ""
  page : String := ""
  chunk_id : String := ""
  score : String := ""
deriving DecidableEq, Inhabited

/-- A stored citation record. -/
structure Citation where
  citation_id : String := ""
  tool_type : String := ""
  query : String := ""
  summary : String := ""
  timestamp : String := ""
  kb_name : String := ""
  sources : List RagSource := []
  web_sources : List WebSource := []
  papers : List Paper := []
  total_sources : Option Nat := none
  total_papers : Option Nat := none
  title : String := ""
  authors : String := ""
  authors_list : List String := []
  year : String := ""
  url : String := ""
  arxiv_id : String := ""
deriving DecidableEq, Inhabited

/-- The persisted counter block of `citations.json` (the value of its
`"counters"` key). -/
structure SavedCounters where
  plan_counter : Int := 0
  block_counters : List (String × Int) := []
deriving DecidableEq, Inhabited

/-- The persisted `citations.json` document.  `counters := none` models an
absent (or empty, hence falsy) `"counters"` entry.  The `research_id` and
`updated_at` fields of the real file do not influence any behaviour and are
omitted. -/
structure CitationsDoc where
  citations : List (String × Citation) := []
  counters : Option SavedCounters := none
deriving DecidableEq, Inhabited

/-- The in-memory state of a `CitationManager`: the citation table, the two
counter families, the cached reference-number map, and the persisted file
(`savedFile := none` models a missing `citations.json`). -/
structure CMState where
  citations : List (String × Citation) := []
  plan_counter : Int := 0
  block_counters : List (String × Int) := []
  ref_number_map : List (String × Nat) := []
  savedFile : Option CitationsDoc := none
deriving DecidableEq, Inhabited

/-! ### Association-list operations (Python `dict` semantics) -/

/-- Python `d.get(k)` / `d[k]`: the value stored under `k`. -/
def alookup {β : Type} : List (String × β) → String → Option β
  | [], _ => none
  | (k1, v) :: rest, k => if k1 = k then some v else alookup rest k

/-- Python `d[k] = v`: replace the value under an existing key in place,
or append a new binding (insertion order preserved). -/
def aupdate {β : Type} : List (String × β) → String → β → List (String × β)
  | [], k, v => [(k, v)]
  | (k1, v1) :: rest, k, v =>
    if k1 = k then (k, v) :: rest else (k1, v1) :: aupdate rest k v

/-- Python `k in d`. -/
def acontains {β : Type} (l : List (String × β)) (k : String) : Bool :=
  (alookup l k).isSome

/-! ### Identifier generation (`generate_plan_citation_id`,
`generate_research_citation_id`, `get_next_citation_id`) -/

/-- Model of `CitationManager.generate_plan_citation_id`: increment the planning
counter and return `f"PLAN-{counter:02d}"`. -/
def generatePlanCitationId (s : CMState) : String × CMState :=
  let c := s.plan_counter + 1
  ("PLAN-" ++ format02 c, { s with plan_counter := c })

/-- The block-number computation of `generate_research_citation_id`:
`int(block_id.split("_")[1])` when `block_id` is non-empty and contains an
underscore, with any `ValueError`/`IndexError` (and the no-underscore case)
falling back to `0`. -/
def pyBlockNum (block_id : String) : Int :=
  if block_id ≠ "" ∧ block_id.data.contains '_' then
    match pyInt? ((pySplit block_id '_').getD 1 "") with
    | some n => n
    | none => 0
  else 0

/-- Model of `CitationManager.generate_research_citation_id`: extract the block
number from `block_id`, initialise the block counter to 0 if absent,
increment it, and return `f"CIT-{block_num}-{counter:02d}"`. -/
def generateResearchCitationId (s : CMState) (block_id : String) : String × CMState :=
  let block_num := pyBlockNum block_id
  let block_key := intStr block_num
  let counters0 :=
    if acontains s.block_counters block_key then s.block_counters
    else aupdate s.block_counters block_key 0
  let newCount := (alookup counters0 block_key).getD 0 + 1
  let counters1 := aupdate counters0 block_key newCount
  ("CIT-" ++ intStr block_num ++ "-" ++ format02 newCount,
   { s with block_counters := counters1 })

/-- Model of `CitationManager.get_next_citation_id`: dispatch on the stage. -/
def getNextCitationId (s : CMState) (stage : String) (block_id : String) : String × CMState :=
  if stage = "planning" then generatePlanCitationId s
  else generateResearchCitationId s block_id

/-- Model of `CitationManager.citation_exists`: membership in the citation table. -/
def citationExists (s : CMState) (citation_id : String) : Bool :=
  acontains s.citations citation_id

/-! ### Persistence (`_load_citations`, `_restore_counters_from_citations`,
`_save_citations`) -/

/-- One step of `_restore_counters_from_citations` over a stored citation
id: `PLAN-` ids raise the plan counter to the max observed suffix, `CIT-`
ids with exactly two numeric-ish parts raise the per-block counter, and
every parse failure is silently skipped. -/
def restoreStep (acc : Int × List (String × Int)) (citation_id : String) :
    Int × List (String × Int) :=
  if pyStartsWith citation_id "PLAN-" then
    match pyInt? (pyReplace citation_id "PLAN-" "") with
    | some num => (max acc.1 num, acc.2)
    | none => acc
  else if pyStartsWith citation_id "CIT-" then
    let parts := pySplit (pyReplace citation_id "CIT-" "") '-'
    if parts.length = 2 then
      let block_num := parts.getD 0 ""
      match pyInt? (parts.getD 1 "") with
      | some seq_num =>
        let cur := (alookup acc.2 block_num).getD 0
        (acc.1, aupdate acc.2 block_num (max cur seq_num))
      | none => acc
    else acc
  else acc

/-- Model of `CitationManager._restore_counters_from_citations`: fold `restoreStep`
over the stored citation ids, starting from the zeroed counters set in
`__init__`. -/
def restoreCountersFromCitations (citations : List (String × Citation)) :
    Int × List (String × Int) :=
  citations.foldl (fun acc p => restoreStep acc p.1) (0, [])

/-- Model of `CitationManager._load_citations`: take the stored citation table
as-is; trust a present non-empty counters block, otherwise reconstruct the
counters from the citation ids.  A missing file yields the empty state. -/
def loadCitations (file : Option CitationsDoc) : CMState :=
  match file with
  | none => { savedFile := none }
  | some d =>
    match d.counters with
    | some c =>
      { citations := d.citations, plan_counter := c.plan_counter,
        block_counters := c.block_counters, savedFile := some d }
    | none =>
      let pc := restoreCountersFromCitations d.citations
      { citations := d.citations, plan_counter := pc.1,
        block_counters := pc.2, savedFile := some d }

/-- Model of `CitationManager._save_citations`: write the full document, or — when
the write raises (`saveOk = false`) — catch the exception, log it, and
leave the file as it was.  Exceptions never propagate out of this method. -/
def saveCitations (s : CMState) (saveOk : Bool) : CMState :=
  let doc : CitationsDoc :=
    { citations := s.citations,
      counters := some { plan_counter := s.plan_counter,
                         block_counters := s.block_counters } }
  if saveOk then { s with savedFile := some doc } else s

/-! ### Inline reference validation (`validate_citation_references`) -/

/-- The result dictionary of `validate_citation_references`. -/
structure ValidationResult where
  valid_citations : List String
  invalid_citations : List String
  is_valid : Bool
  total_found : Nat
deriving DecidableEq, Inhabited

/-- One anchored match of the pattern `\[\[([A-Z]+-\d+-?\d*)\]\]` at the
head of the character list, returning the captured group and the rest of
the input after the match.  Greedy matching with the pattern's only
backtracking-free reading: after the first digit run either `]]` follows
directly, or a `-` plus a second (possibly empty) digit run does. -/
def matchMarker (cs : List Char) : Option (List Char × List Char) :=
  match cs with
  | c1 :: c2 :: rest =>
    if c1 = '[' ∧ c2 = '[' then
      let letters := rest.takeWhile isUpperAZ
      let r1 := rest.dropWhile isUpperAZ
      if letters.isEmpty then none
      else
        match r1 with
        | d0 :: r2 =>
          if d0 = '-' then
            let digs := r2.takeWhile isDigitC
            let r3 := r2.dropWhile isDigitC
            if digs.isEmpty then none
            else
              match r3 with
              | e1 :: e2 :: r4 =>
                if e1 = ']' ∧ e2 = ']' then
                  some (letters ++ '-' :: digs, r4)
                else if e1 = '-' then
                  let digs2 := (e2 :: r4).takeWhile isDigitC
                  let r5 := (e2 :: r4).dropWhile isDigitC
                  match r5 with
                  | f1 :: f2 :: r6 =>
                    if f1 = ']' ∧ f2 = ']' then
                      some (letters ++ '-' :: digs ++ '-' :: digs2, r6)
                    else none
                  | _ => none
                else none
              | _ => none
          else none
        | [] => none
    else none
  | _ => none

/-- Model of `re.findall` for the citation-marker pattern: scan left to right,
taking non-overlapping matches and advancing one character on failure. -/
def findMarkersAux : Nat → List Char → List String
  | 0, _ => []
  | _, [] => []
  | fuel + 1, c :: cs =>
    match matchMarker (c :: cs) with
    | some (g, rest) => (⟨g⟩ : String) :: findMarkersAux fuel rest
    | none => findMarkersAux fuel cs

/-- All citation references found in a text by the pattern
`\[\[([A-Z]+-\d+-?\d*)\]\]`. -/
def findMarkers (text : String) : List String :=
  findMarkersAux text.data.length text.data

/-- Model of `CitationManager.validate_citation_references`: partition the found
references by membership in the citation table. -/
def validateCitationReferences (s : CMState) (text : String) : ValidationResult :=
  let found_refs := findMarkers text
  { valid_citations := found_refs.filter (fun r => citationExists s r)
    invalid_citations := found_refs.filter (fun r => !citationExists s r)
    is_valid := (found_refs.filter (fun r => !citationExists s r)).length = 0
    total_found := found_refs.length }

/-! ### Extraction (`add_citation` and the `_extract_*` helpers)

`json.loads` is an external collaborator: a raw answer is modelled by the
result of parsing it, `none` standing for a string that is not valid JSON
(such as `"not json"`), where the Python code catches the decode error.
The tool-trace object exposes `query`/`summary`/`timestamp`; a `none`
field models an attribute access that raises, which in the source escapes
the extraction helpers and is caught only at the `add_citation` boundary. -/

/-- A parsed JSON value. -/
inductive Json where
  | null : Json
  | bool (b : Bool) : Json
  | num (n : Int) : Json
  | str (s : String) : Json
  | arr (elems : List Json) : Json
  | obj (fields : List (String × Json)) : Json
deriving Inhabited

/-- Lookup `d.get(key)` on a JSON object (`none` when the value is not an object
or the key is absent). -/
def jGet : Json → String → Option Json
  | .obj fields, k => alookup fields k
  | _, _ => none

/-- Lookup `d.get(key, default)` for a string-valued field; a present non-string
value degrades to the default (such values never occur in well-formed tool
answers). -/
def jStrD (j : Json) (k : String) (dflt : String) : String :=
  match jGet j k with
  | some (.str s) => s
  | some _ => dflt
  | none => dflt

/-- Lookup `d.get(key, [])` for a list of strings (non-string elements are
dropped; in Python they would make `", ".join` raise). -/
def jStrListD (j : Json) (k : String) : List String :=
  match jGet j k with
  | some (.arr l) =>
    l.filterMap (fun e => match e with | .str s => some s | _ => none)
  | _ => []

/-- Whether a JSON value is an object (Python `isinstance(x, dict)`). -/
def jIsObj : Json → Bool
  | .obj _ => true
  | _ => false

/-- The caller-supplied tool-trace object; a `none` field models an
attribute access that raises. -/
structure ToolTrace where
  query : Option String := none
  summary : Option String := none
  timestamp : Option String := none
deriving DecidableEq, Inhabited

/-- Reading an attribute of the tool trace (raises on `none`). -/
def traceGet : Option String → Except Unit String
  | some v => .ok v
  | none => .error ()

/-- Model of `CitationManager._extract_rag_citation`. -/
def extractRagCitation (citation_id tool_type : String) (raw_answer : Option Json)
    (tool_trace : ToolTrace) : Except Unit Citation := do
  let q ← traceGet tool_trace.query
  let sm ← traceGet tool_trace.summary
  let ts ← traceGet tool_trace.timestamp
  let base : Citation :=
    { citation_id := citation_id, tool_type := tool_type, query := q,
      summary := sm, timestamp := ts, sources := [] }
  match raw_answer with
  | none => .ok base
  | some answer_data =>
    if jIsObj answer_data then
      let fieldNames := ["chunks", "documents", "sources", "context", "retrieved_docs"]
      let sources : List RagSource :=
        match fieldNames.find? (fun fn => (jGet answer_data fn).isSome) with
        | none => []
        | some fn =>
          match jGet answer_data fn with
          | some (.arr source_list) =>
            ((source_list.take 5).enum).filterMap (fun p =>
              match p.2 with
              | .obj _ => some
                  { title := jStrD p.2 "title" (jStrD p.2 "doc_title" ""),
                    content_preview := pyTakeStr 200
                      (jStrD p.2 "content" (jStrD p.2 "text" "")),
                    source_file := jStrD p.2 "source"
                      (jStrD p.2 "file_path" (jStrD p.2 "filename" "")),
                    page := jStrD p.2 "page" (jStrD p.2 "page_number" ""),
                    chunk_id := jStrD p.2 "chunk_id" (jStrD p.2 "id" (natStr p.1)),
                    score := jStrD p.2 "score" (jStrD p.2 "similarity" "") }
              | .str s => some { content_preview := pyTakeStr 200 s }
              | _ => none)
          | _ => []
      .ok { base with kb_name := jStrD answer_data "kb_name" "",
                      sources := sources, total_sources := some sources.length }
    else
      .ok base

/-- Model of `CitationManager._extract_web_citation`. -/
def extractWebCitation (citation_id tool_type : String) (raw_answer : Option Json)
    (tool_trace : ToolTrace) : Except Unit Citation := do
  let q ← traceGet tool_trace.query
  let sm ← traceGet tool_trace.summary
  let ts ← traceGet tool_trace.timestamp
  let base : Citation :=
    { citation_id := citation_id, tool_type := tool_type, query := q,
      summary := sm, timestamp := ts, web_sources := [] }
  match raw_answer with
  | none => .ok base
  | some answer_data =>
    if jIsObj answer_data then
      let fieldNames := ["results", "web_results", "search_results", "urls"]
      let web_sources : List WebSource :=
        match fieldNames.find? (fun fn => (jGet answer_data fn).isSome) with
        | none => []
        | some fn =>
          match jGet answer_data fn with
          | some (.arr result_list) =>
            (result_list.take 5).filterMap (fun result =>
              match result with
              | .obj _ =>
                let ws : WebSource :=
                  { title := jStrD result "title" "",
                    url :=
                      match jGet result "url" with
                      | some (.str u) => u
                      | some _ => ""
                      | none => jStrD result "link" "",
                    snippet := pyTakeStr 200
                      (match jGet result "snippet" with
                       | some (.str t) => t
                       | some _ => ""
                       | none => jStrD result "description" ""),
                    domain := jStrD result "domain" "" }
                if ws.url ≠ "" then some ws else none
              | _ => none)
          | _ => []
      .ok { base with web_sources := web_sources,
                      total_sources := some web_sources.length }
    else
      .ok base

/-- Python `", ".join(authors[:3])` plus the `" et al."` suffix for more than
three authors. -/
def formatAuthors (authors : List String) : String :=
  let author_str := String.intercalate ", " (authors.take 3)
  if authors.length > 3 then author_str ++ " et al." else author_str

/-- The paper record built for one entry of the `papers` list. -/
def processPaper (paper : Json) : Paper :=
  let authors := jStrListD paper "authors"
  { title := jStrD paper "title" "",
    authors := formatAuthors authors,
    authors_list := authors,
    year := jStrD paper "year" "",
    url := jStrD paper "url" "",
    arxiv_id := jStrD paper "arxiv_id" "",
    abstract := pyTakeStr 300 (jStrD paper "abstract" ""),
    doi := jStrD paper "doi" "",
    venue :=
      match jGet paper "venue" with
      | some (.str v) => v
      | some _ => ""
      | none => jStrD paper "journal" "" }

/-- Model of `CitationManager._extract_paper_citation`. -/
def extractPaperCitation (citation_id tool_type : String) (raw_answer : Option Json)
    (tool_trace : ToolTrace) : Except Unit Citation := do
  let q ← traceGet tool_trace.query
  let sm ← traceGet tool_trace.summary
  let ts ← traceGet tool_trace.timestamp
  let base : Citation :=
    { citation_id := citation_id, tool_type := tool_type, query := q,
      summary := sm, timestamp := ts, papers := [] }
  match raw_answer with
  | none => .ok base
  | some answer_data =>
    match jGet answer_data "papers" with
    | some (.arr papers) =>
      if papers.isEmpty then .ok base
      else if (papers.take 5).all jIsObj then
        let processed := (papers.take 5).map processPaper
        match processed with
        | [] => .ok { base with papers := processed,
                                total_papers := some processed.length }
        | primary :: _ =>
          .ok { base with papers := processed,
                          total_papers := some processed.length,
                          title := primary.title, authors := primary.authors,
                          authors_list := primary.authors_list,
                          year := primary.year, url := primary.url,
                          arxiv_id := primary.arxiv_id }
      else
        .ok base
    | _ => .ok base

/-- Model of `CitationManager._extract_code_citation`. -/
def extractCodeCitation (citation_id tool_type : String) (tool_trace : ToolTrace) :
    Except Unit Citation := do
  let q ← traceGet tool_trace.query
  let sm ← traceGet tool_trace.summary
  let ts ← traceGet tool_trace.timestamp
  .ok { citation_id := citation_id, tool_type := tool_type, query := q,
        summary := sm, timestamp := ts }

/-- Model of `CitationManager._extract_generic_citation`. -/
def extractGenericCitation (citation_id tool_type : String) (tool_trace : ToolTrace) :
    Except Unit Citation := do
  let q ← traceGet tool_trace.query
  let sm ← traceGet tool_trace.summary
  let ts ← traceGet tool_trace.timestamp
  .ok { citation_id := citation_id, tool_type := tool_type, query := q,
        summary := sm, timestamp := ts }

/-- The extraction dispatch of `add_citation` on the lower-cased tool type. -/
def extractCitationInfo (citation_id tool_type : String) (tool_trace : ToolTrace)
    (raw_answer : Option Json) : Except Unit Citation :=
  let ttl := pyLower tool_type
  if ttl = "rag_naive" ∨ ttl = "rag_hybrid" ∨ ttl = "query_item" then
    extractRagCitation citation_id tool_type raw_answer tool_trace
  else if ttl = "web_search" then
    extractWebCitation citation_id tool_type raw_answer tool_trace
  else if ttl = "paper_search" then
    extractPaperCitation citation_id tool_type raw_answer tool_trace
  else if ttl = "run_code" then
    extractCodeCitation citation_id tool_type tool_trace
  else
    extractGenericCitation citation_id tool_type tool_trace

/-- Model of `CitationManager.add_citation`: extract a record for the tool call,
store it under `citation_id`, persist, and report success.  Any exception
escaping extraction is caught here and reported as `False` with the state
untouched; the records built by the extractors are never empty, so the
falsy-record branch returning `False` is unreachable.  `saveOk` is the
environment's verdict on the file write, whose failure `_save_citations`
swallows. -/
def addCitation (s : CMState) (citation_id tool_type : String)
    (tool_trace : ToolTrace) (raw_answer : Option Json) (saveOk : Bool) :
    Bool × CMState :=
  match extractCitationInfo citation_id tool_type tool_trace raw_answer with
  | .error _ => (false, s)
  | .ok citation_info =>
    let s1 := { s with citations := aupdate s.citations citation_id citation_info }
    (true, saveCitations s1 saveOk)

/-! ### Deduplication key and sort key -/

/-- Model of `CitationManager._get_citation_dedup_key`.  `paper = some p` models a
truthy paper dict passed by `build_ref_number_map`; only `paper_search`
citations are ever deduplicated, every other record keys on its own
`citation_id`. -/
def getCitationDedupKey (citation : Citation) (paper : Option Paper) : String :=
  let tool_type := pyLower citation.tool_type
  let citation_id := citation.citation_id
  match paper with
  | some p =>
    -- with a truthy paper, the `elif tool_type == "paper_search"` arm of the
    -- source can only be reached when the first condition already failed on
    -- the tool type, so it is unreachable and elided
    if tool_type = "paper_search" then
      let title := pyStrip (pyLower p.title)
      let authors := pyStrip (pyLower p.authors)
      let first_author :=
        if authors ≠ "" then pyStrip ((pySplit authors ',').getD 0 "") else ""
      if title ≠ "" then "paper:" ++ title ++ "|" ++ first_author
      else "unique:" ++ citation_id
    else "unique:" ++ citation_id
  | none =>
    if tool_type = "paper_search" then
      let title := pyStrip (pyLower citation.title)
      let authors := pyStrip (pyLower citation.authors)
      let first_author :=
        if authors ≠ "" then pyStrip ((pySplit authors ',').getD 0 "") else ""
      if title ≠ "" then "paper:" ++ title ++ "|" ++ first_author
      else "unique:" ++ citation_id
    else "unique:" ++ citation_id

/-- Model of `CitationManager._extract_citation_sort_key`: `(0, 0, n)` for a
parseable `PLAN-` id, `(1, b, n)` for an id whose `CIT-`-stripped form has
exactly two `int()`-parseable parts, and the sentinel `(999, 999, 999)`
whenever parsing fails. -/
def extractCitationSortKey (citation_id : String) : Int × Int × Int :=
  if pyStartsWith citation_id "PLAN-" then
    match pyInt? (pyReplace citation_id "PLAN-" "") with
    | some num => (0, 0, num)
    | none => (999, 999, 999)
  else
    if (pySplit (pyReplace citation_id "CIT-" "") '-').length = 2 then
      match pyInt? ((pySplit (pyReplace citation_id "CIT-" "") '-').getD 0 ""),
            pyInt? ((pySplit (pyReplace citation_id "CIT-" "") '-').getD 1 "") with
      | some b, some n => (1, b, n)
      | _, _ => (999, 999, 999)
    else (999, 999, 999)

/-- Lexicographic order on Python int triples (the tuple comparison used by
`sorted(..., key=...)`): `a ≤ b` iff the first differing component of `a`
is smaller, or no component differs. -/
def keyLEb (a b : Int × Int × Int) : Bool :=
  decide (a.1 < b.1 ∨ (a.1 = b.1 ∧
    (a.2.1 < b.2.1 ∨ (a.2.1 = b.2.1 ∧ a.2.2 ≤ b.2.2))))

/-- Strict lexicographic order on Python int triples (the tuple `<`). -/
def keyLTb (a b : Int × Int × Int) : Bool :=
  decide (a.1 < b.1 ∨ (a.1 = b.1 ∧
    (a.2.1 < b.2.1 ∨ (a.2.1 = b.2.1 ∧ a.2.2 < b.2.2))))

/-- The sort relation of `build_ref_number_map` on citation ids. -/
def citLE (x y : String) : Prop :=
  keyLEb (extractCitationSortKey x) (extractCitationSortKey y) = true

instance : DecidableRel citLE := fun x y => by
  unfold citLE
  infer_instance

instance : IsTotal String citLE := by
  constructor
  intro x y
  unfold citLE keyLEb
  simp only [decide_eq_true_eq]
  omega

instance : IsTrans String citLE := by
  constructor
  intro x y z h1 h2
  unfold citLE keyLEb at h1 h2 ⊢
  simp only [decide_eq_true_eq] at h1 h2 ⊢
  omega

/-- Model of `sorted(self._citations.keys(), key=self._extract_citation_sort_key)`:
a stable ascending sort of the stored citation ids (insertion sort places a
new element before the later-inserted elements with an equal key, which is
exactly the stability of Python's sort). -/
def sortedCitationIds (citations : List (String × Citation)) : List String :=
  List.insertionSort citLE (citations.map Prod.fst)

/-! ### Reference-number map construction (`build_ref_number_map`) -/

/-- One deduplication unit processed by the `build_ref_number_map` loop:
the `ref_map` keys written for the unit and the dedup key that decides the
reference number. -/
structure RefUnit where
  mapKeys : List String
  dedupKey : String
deriving DecidableEq, Inhabited

/-- The units produced for one stored citation: each paper of a
`paper_search` citation is a unit of its own (the bare `citation_id` is
written only for the first paper, the synthetic `f"{citation_id}-{i+1}"`
key for every paper); a `paper_search` record without papers and every
other record form a single unit keyed by the bare `citation_id`. -/
def citationRefUnits (citation_id : String) (citation : Citation) : List RefUnit :=
  if pyLower citation.tool_type = "paper_search" then
    if citation.papers.isEmpty then
      [⟨[citation_id], getCitationDedupKey citation none⟩]
    else
      citation.papers.enum.map (fun q =>
        ⟨(if q.1 = 0 then [citation_id] else []) ++
           [citation_id ++ "-" ++ natStr (q.1 + 1)],
         getCitationDedupKey citation (some q.2)⟩)
  else
    [⟨[citation_id], getCitationDedupKey citation none⟩]

/-- All units processed by `build_ref_number_map`, in loop order: stored
ids sorted by the sort key, skipping ids whose lookup is falsy. -/
def refUnits (citations : List (String × Citation)) : List RefUnit :=
  (((sortedCitationIds citations).filterMap
      (fun cid => (alookup citations cid).map (fun c => (cid, c)))).map
    (fun p => citationRefUnits p.1 p.2)).flatten

/-- The loop state of `build_ref_number_map`: the `seen_keys` table, the
running `ref_idx`, the map under construction, and — as proof
instrumentation — the per-unit assignment trace `(unit, ref_number,
freshly_allocated)`. -/
structure RefBuild where
  seen : List (String × Nat)
  ref_idx : Nat
  ref_map : List (String × Nat)
  trace : List (RefUnit × Nat × Bool)
deriving DecidableEq, Inhabited

/-- Write one reference number under all map keys of a unit. -/
def writeKeys (m : List (String × Nat)) (ks : List String) (n : Nat) :
    List (String × Nat) :=
  ks.foldl (fun m k => aupdate m k n) m

/-- One iteration of the `build_ref_number_map` loop: reuse the number of a
seen dedup key, otherwise allocate `ref_idx + 1`. -/
def refStep (st : RefBuild) (u : RefUnit) : RefBuild :=
  match alookup st.seen u.dedupKey with
  | some n =>
    { st with ref_map := writeKeys st.ref_map u.mapKeys n,
              trace := st.trace ++ [(u, n, false)] }
  | none =>
    let n := st.ref_idx + 1
    { seen := st.seen ++ [(u.dedupKey, n)], ref_idx := n,
      ref_map := writeKeys st.ref_map u.mapKeys n,
      trace := st.trace ++ [(u, n, true)] }

/-- The final loop state of `build_ref_number_map` over a citation table. -/
def buildRefState (citations : List (String × Citation)) : RefBuild :=
  (refUnits citations).foldl refStep ⟨[], 0, [], []⟩

/-- The per-unit assignment trace of one `build_ref_number_map` run. -/
def refTrace (citations : List (String × Citation)) : List (RefUnit × Nat × Bool) :=
  (buildRefState citations).trace

/-- The reference-number map computed for a citation table. -/
def refMapOfCitations (citations : List (String × Citation)) : List (String × Nat) :=
  if citations.isEmpty then [] else (buildRefState citations).ref_map

/-- Model of `CitationManager.build_ref_number_map`: rebuild the map from the stored
citations, cache it, and return it. -/
def buildRefNumberMap (s : CMState) : List (String × Nat) × CMState :=
  if s.citations.isEmpty then ([], { s with ref_number_map := [] })
  else
    let m := (buildRefState s.citations).ref_map
    (m, { s with ref_number_map := m })

/-- Model of `CitationManager.get_ref_number`: build the map on first access, then
serve from the cache (`0` for an unknown id). -/
def getRefNumber (s : CMState) (citation_id : String) : Nat × CMState :=
  let s1 := if s.ref_number_map.isEmpty then (buildRefNumberMap s).2 else s
  ((alookup s1.ref_number_map citation_id).getD 0, s1)

/-- Model of `CitationManager.get_all_citations` as a pure value: the contents of
the returned copy. -/
def getAllCitations (s : CMState) : List (String × Citation) :=
  s.citations

/-- Model of `CitationManager.get_ref_number_map` as a pure value: build on first
access, then return the contents of the returned copy. -/
def getRefNumberMap (s : CMState) : List (String × Nat) × CMState :=
  let s1 := if s.ref_number_map.isEmpty then (buildRefNumberMap s).2 else s
  (s1.ref_number_map, s1)

/-! ### Heap model for the copy semantics of the getters

`get_all_citations` and `get_ref_number_map` return `dict.copy()` of the
store's internal mappings.  Copying is an aliasing property, so these two
getters are additionally modelled over an explicit heap of dictionary
objects: an address is an index into the heap, the store holds the
addresses of its two dictionaries, reading a returned dictionary or
mutating it acts on its address. -/

/-- A heap of dictionary objects of one value type; an address is an index
into `cells`. -/
structure DictHeap (α : Type) where
  cells : List α
deriving DecidableEq, Inhabited

/-- Allocate a fresh dictionary object, returning its address. -/
def DictHeap.alloc {α : Type} (h : DictHeap α) (a : α) : Nat × DictHeap α :=
  (h.cells.length, ⟨h.cells ++ [a]⟩)

/-- Read the dictionary at an address. -/
def DictHeap.read {α : Type} (h : DictHeap α) (r : Nat) : Option α :=
  h.cells[r]?

/-- Mutate the dictionary at an address (any combination of adding,
removing, or replacing entries is a replacement of the contents). -/
def DictHeap.write {α : Type} (h : DictHeap α) (r : Nat) (a : α) : DictHeap α :=
  ⟨h.cells.set r a⟩

/-- The attribute slots of the store object: the addresses of
`_citations` and `_ref_number_map`. -/
structure StoreObj where
  citAddr : Nat
  refMapAddr : Nat
deriving DecidableEq, Inhabited

/-- Model of `CitationManager.get_all_citations` over the heap:
`return self._citations.copy()` allocates a fresh dictionary holding the
same contents and returns its address. -/
def getAllCitationsHeap (h : DictHeap (List (String × Citation))) (st : StoreObj) :
    Nat × DictHeap (List (String × Citation)) :=
  h.alloc ((h.read st.citAddr).getD [])

/-- Model of `CitationManager.get_ref_number_map` over the heap: when the cached map
is empty, `build_ref_number_map` binds `self._ref_number_map` to a freshly
built dictionary; then `self._ref_number_map.copy()` allocates a fresh
copy and returns its address. -/
def getRefNumberMapHeap (hc : DictHeap (List (String × Citation)))
    (hr : DictHeap (List (String × Nat))) (st : StoreObj) :
    Nat × DictHeap (List (String × Nat)) × StoreObj :=
  let cur := (hr.read st.refMapAddr).getD []
  if cur.isEmpty then
    let tbl := (hc.read st.citAddr).getD []
    let m := refMapOfCitations tbl
    let p1 := hr.alloc m
    let st1 := { st with refMapAddr := p1.1 }
    let p2 := p1.2.alloc m
    (p2.1, p2.2, st1)
  else
    let p2 := hr.alloc cur
    (p2.1, p2.2, st)

/-! ### Spec-side definition for the block-number rule, and fixtures -/

/-- The block-number rule as the specification words it: the integer parsed
from the text after the last underscore of `block_id`.  (The source instead
takes `block_id.split("_")[1]`, the segment after the first underscore;
this definition exists to compare the two readings.) -/
def specBlockNumLastSeg (block_id : String) : Option Int :=
  pyInt? ((pySplit block_id '_').getLastD "")

/-- A minimal stored record used by concrete test states (its contents are
irrelevant to counter reconstruction). -/
def fixtureCit : Citation := { citation_id := "x", tool_type := "run_code" }

/-- A tool trace whose three attributes all read successfully. -/
def fixtureTrace : ToolTrace :=
  { query := some "what is X", summary := some "a summary",
    timestamp := some "2024-01-01T00:00:00" }

/-- The persisted document of the restart-consistency scenario: citations
`{PLAN-01, PLAN-03, CIT-2-01}` and no counters entry. -/
def fixtureDoc : CitationsDoc :=
  { citations := [("PLAN-01", fixtureCit), ("PLAN-03", fixtureCit),
                  ("CIT-2-01", fixtureCit)],
    counters := none }

/-- A store holding exactly the citation `CIT-1-01`. -/
def fixtureStoreOne : CMState :=
  { citations := [("CIT-1-01", { citation_id := "CIT-1-01", tool_type := "rag_naive" })] }

/-! ### Call sequences of the id generators (for the uniqueness and
monotonicity claims) -/

/-- The ids returned by `n` successive `generate_plan_citation_id` calls. -/
def runPlan : CMState → Nat → List String
  | _, 0 => []
  | s, n + 1 =>
    (generatePlanCitationId s).1 :: runPlan (generatePlanCitationId s).2 n

/-- The ids returned by successive `generate_research_citation_id` calls
with the given block ids. -/
def runResearch : CMState → List String → List String
  | _, [] => []
  | s, b :: bs =>
    (generateResearchCitationId s b).1 :: runResearch (generateResearchCitationId s b).2 bs

/-- The current counter of a block key (0 when the key is absent). -/
def ctr (s : CMState) (key : String) : Int :=
  (alookup s.block_counters key).getD 0

/-- The counter key a block id maps to: `str(block_num)`. -/
def blockKeyOf (b : String) : String := intStr (pyBlockNum b)

/-- How many of the given block ids map to a counter key. -/
def countBK (key : String) (bs : List String) : Nat :=
  bs.countP (fun b => blockKeyOf b == key)

/-- The per-block sequence number produced by the call at position `i` of a
`runResearch` request list, when that request is for block id `b`. -/
def seqNumAt (s : CMState) (bs : List String) (b : String) (i : Nat) : Int :=
  ctr s (blockKeyOf b) + countBK (blockKeyOf b) (bs.take i) + 1

/-! ### Invariants of the reference-number build loop -/

/-- The trimmed first author extracted from a normalized (lower-cased,
stripped) authors string, as `_get_citation_dedup_key` computes it:
`authors.split(",")[0].strip()` when the normalized string is non-empty. -/
def firstAuthorNormalized (authors : String) : String :=
  let na := pyStrip (pyLower authors)
  if na ≠ "" then pyStrip ((pySplit na ',').getD 0 "") else ""

/-- The invariant maintained by the `build_ref_number_map` loop: every
seen number lies in `[1, ref_idx]`, the `seen_keys` table is a bijection
between its keys and its numbers, and every trace entry's key/number pair
is recorded in `seen_keys`. -/
def RefInv (st : RefBuild) : Prop :=
  (∀ p ∈ st.seen, 1 ≤ p.2 ∧ p.2 ≤ st.ref_idx) ∧
  (∀ p ∈ st.seen, ∀ q ∈ st.seen, (p.1 = q.1 ↔ p.2 = q.2)) ∧
  (∀ t ∈ st.trace, (t.1.dedupKey, t.2.1) ∈ st.seen)

/-- A duplicated paper used by the C1 witness table. -/
def fixturePaperA : Paper := { title := "Deep Learning", authors := "A. Smith, B. Jones" }

/-- A distinct paper used by the C1 witness table. -/
def fixturePaperB : Paper := { title := "Other Paper", authors := "C. Wu" }

/-- A `paper_search` citation holding two papers. -/
def fixtureCitP1 : Citation :=
  { citation_id := "CIT-1-01", tool_type := "paper_search",
    papers := [fixturePaperA, fixturePaperB] }

/-- A second `paper_search` citation repeating the first paper. -/
def fixtureCitP2 : Citation :=
  { citation_id := "CIT-2-01", tool_type := "paper_search", papers := [fixturePaperA] }

/-- A `web_search` citation. -/
def fixtureCitW : Citation := { citation_id := "PLAN-01", tool_type := "web_search" }

/-- A second `web_search` citation. -/
def fixtureCitW2 : Citation := { citation_id := "PLAN-02", tool_type := "web_search" }

/-- The citation table used by the C1 and C5 witnesses. -/
def fixtureTable : List (String × Citation) :=
  [("CIT-1-01", fixtureCitP1), ("CIT-2-01", fixtureCitP2),
   ("PLAN-01", fixtureCitW), ("PLAN-02", fixtureCitW2)]

/-- The fresh reference numbers emitted along the build walk, in order. -/
def freshNums (tr : List (RefUnit × Nat × Bool)) : List Nat :=
  (tr.filter (fun t => t.2.2)).map (fun t => t.2.1)

/-! ### Lemmas: decimal formatting round-trips -/

theorem parseNatAux_cons (acc : Nat) (c : Char) (cs : List Char) :
    parseNatAux acc (c :: cs) = parseNatAux (acc * 10 + charVal c) cs := rfl

theorem parseNatAux_nil (acc : Nat) : parseNatAux acc [] = acc := rfl

theorem parseNatAux_append (l1 l2 : List Char) (acc : Nat) :
    parseNatAux acc (l1 ++ l2) = parseNatAux (parseNatAux acc l1) l2 := by
  induction l1 generalizing acc with
  | nil => rfl
  | cons c cs ih =>
    rw [List.cons_append, parseNatAux_cons, parseNatAux_cons]
    exact ih _

theorem charVal_digitChar {d : Nat} (h : d < 10) : charVal (digitChar d) = d := by
  interval_cases d <;> decide

theorem isDigitC_digitChar {d : Nat} (h : d < 10) : isDigitC (digitChar d) = true := by
  interval_cases d <;> decide

theorem natCharsAux_step {fuel n : Nat} (hn : n ≠ 0) :
    natCharsAux (fuel + 1) n = natCharsAux fuel (n / 10) ++ [digitChar (n % 10)] := by
  rw [natCharsAux, if_neg hn]

theorem natCharsAux_parse (fuel : Nat) :
    ∀ n acc, n ≤ fuel →
      parseNatAux acc (natCharsAux fuel n) = acc * 10 ^ (natCharsAux fuel n).length + n := by
  induction fuel with
  | zero =>
    intro n acc h
    have hn : n = 0 := by omega
    subst hn
    rw [show natCharsAux 0 0 = ([] : List Char) from rfl, parseNatAux_nil]
    show acc = acc * 10 ^ (0 : Nat) + 0
    rw [pow_zero, Nat.mul_one, Nat.add_zero]
  | succ fuel ih =>
    intro n acc h
    by_cases hn : n = 0
    · subst hn
      rw [show natCharsAux (fuel + 1) 0 = ([] : List Char) by rw [natCharsAux]; rfl,
        parseNatAux_nil]
      show acc = acc * 10 ^ (0 : Nat) + 0
      rw [pow_zero, Nat.mul_one, Nat.add_zero]
    · have hlt : n / 10 < n := Nat.div_lt_self (Nat.pos_of_ne_zero hn) (by norm_num)
      have hle : n / 10 ≤ fuel := by omega
      rw [natCharsAux_step hn, parseNatAux_append, ih (n / 10) acc hle]
      have hmod : n % 10 < 10 := Nat.mod_lt _ (by norm_num)
      rw [parseNatAux_cons, parseNatAux_nil, charVal_digitChar hmod,
        List.length_append, List.length_singleton]
      have key : (acc * 10 ^ (natCharsAux fuel (n / 10)).length + n / 10) * 10 + n % 10
          = acc * (10 ^ (natCharsAux fuel (n / 10)).length * 10) + (10 * (n / 10) + n % 10) := by
        ring
      rw [key, Nat.div_add_mod, pow_succ]

theorem parseNat_natChars (n : Nat) : parseNat (natChars n) = n := by
  by_cases hn : n = 0
  · subst hn; decide
  · unfold parseNat natChars
    rw [if_neg hn]
    rw [natCharsAux_parse n n 0 le_rfl, Nat.zero_mul, Nat.zero_add]

theorem natCharsAux_digits (fuel : Nat) :
    ∀ n, ∀ c ∈ natCharsAux fuel n, isDigitC c = true := by
  induction fuel with
  | zero => intro n c hc; simp [natCharsAux] at hc
  | succ fuel ih =>
    intro n c hc
    by_cases hn : n = 0
    · subst hn; simp [natCharsAux] at hc
    · rw [natCharsAux_step hn] at hc
      rcases List.mem_append.mp hc with h | h
      · exact ih _ c h
      · have hmod : n % 10 < 10 := Nat.mod_lt _ (by norm_num)
        simp at h
        subst h
        exact isDigitC_digitChar hmod

theorem natCharsAux_digits_mem {fuel n : Nat} {c : Char} (h : c ∈ natCharsAux fuel n) :
    isDigitC c = true := natCharsAux_digits fuel n c h

theorem natChars_digits (n : Nat) : ∀ c ∈ natChars n, isDigitC c = true := by
  intro c hc
  by_cases hn : n = 0
  · subst hn; simp [natChars] at hc; subst hc; decide
  · exact natCharsAux_digits n n c (by simpa [natChars, hn] using hc)

theorem natChars_ne_nil (n : Nat) : natChars n ≠ [] := by
  by_cases hn : n = 0
  · subst hn; simp [natChars]
  · simp only [natChars, hn, if_false]
    intro he
    have h2 := natCharsAux_parse n n 0 le_rfl
    rw [he, parseNatAux_nil, List.length_nil, pow_zero] at h2
    omega

/-- A digit character differs from every non-digit character. -/
theorem char_ne_of_digit {c : Char} (h : isDigitC c = true) (d : Char)
    (hd : isDigitC d = false) : c ≠ d := by
  intro he
  rw [he] at h
  rw [h] at hd
  cases hd

theorem isPySpace_of_digit {c : Char} (h : isDigitC c = true) : isPySpace c = false := by
  have hne : ∀ d : Char, isDigitC d = false → (c == d) = false := fun d hd =>
    beq_eq_false_iff_ne.mpr (char_ne_of_digit h d hd)
  simp only [isPySpace, hne ' ' (by decide), hne '\t' (by decide),
    hne '\n' (by decide), hne '\r' (by decide),
    hne (Char.ofNat 11) (by decide), hne (Char.ofNat 12) (by decide), Bool.or_false]

theorem dropWhile_eq_self_of_not {p : Char → Bool} {cs : List Char}
    (h : ∀ c ∈ cs, p c = false) : cs.dropWhile p = cs := by
  cases cs with
  | nil => rfl
  | cons c cs => simp [List.dropWhile, h c (by simp)]

theorem pyStripChars_eq_self {cs : List Char}
    (h : ∀ c ∈ cs, isPySpace c = false) : pyStripChars cs = cs := by
  unfold pyStripChars
  rw [dropWhile_eq_self_of_not h,
    dropWhile_eq_self_of_not (fun c hc => h c (List.mem_reverse.mp hc)),
    List.reverse_reverse]

theorem pySplitChars_of_not_mem {sep : Char} {cs : List Char} (h : sep ∉ cs) :
    pySplitChars sep cs = [cs] := by
  induction cs with
  | nil => rfl
  | cons c cs ih =>
    have hc : c ≠ sep := fun he => h (by simp [he])
    have : sep ∉ cs := fun hm => h (by simp [hm])
    rw [show pySplitChars sep (c :: cs)
          = match pySplitChars sep cs with
            | [] => [[]]
            | g :: gs => if c = sep then [] :: g :: gs else (c :: g) :: gs from rfl,
      ih this]
    simp [hc]

theorem natPart?_of_digits {cs : List Char} (hne : cs ≠ [])
    (h : ∀ c ∈ cs, isDigitC c = true) : natPart? cs = some ((parseNat cs : Nat) : Int) := by
  have hsplit : pySplitChars '_' cs = [cs] :=
    pySplitChars_of_not_mem (fun hm =>
      (char_ne_of_digit (h _ hm) '_' (by decide)) rfl)
  unfold natPart? pyDigitGroupsOk
  rw [hsplit]
  simp [hne, List.all_eq_true.mpr h]

theorem pyIntSigned_of_digits {cs : List Char} (hne : cs ≠ [])
    (h : ∀ c ∈ cs, isDigitC c = true) :
    pyIntSigned cs = some ((parseNat cs : Nat) : Int) := by
  cases cs with
  | nil => exact absurd rfl hne
  | cons c cs =>
    have hd := h c (by simp)
    rw [show pyIntSigned (c :: cs)
          = if c = '+' then natPart? cs
            else if c = '-' then (natPart? cs).map (fun n => -n)
            else natPart? (c :: cs) from rfl]
    rw [if_neg (char_ne_of_digit hd '+' (by decide)),
      if_neg (char_ne_of_digit hd '-' (by decide))]
    exact natPart?_of_digits hne h

theorem pyIntChars?_of_digits {cs : List Char} (hne : cs ≠ [])
    (h : ∀ c ∈ cs, isDigitC c = true) :
    pyIntChars? cs = some ((parseNat cs : Nat) : Int) := by
  unfold pyIntChars?
  rw [pyStripChars_eq_self (fun c hc => isPySpace_of_digit (h c hc))]
  exact pyIntSigned_of_digits hne h

theorem data_mk (cs : List Char) : (⟨cs⟩ : String).data = cs := rfl

theorem pyInt?_natStr (n : Nat) : pyInt? (natStr n) = some ((n : Nat) : Int) := by
  unfold pyInt? natStr
  rw [data_mk, pyIntChars?_of_digits (natChars_ne_nil n) (natChars_digits n),
    parseNat_natChars]

theorem pyIntChars?_neg_digits (m : Nat) :
    pyIntChars? ('-' :: natChars m) = some (-(m : Int)) := by
  unfold pyIntChars?
  have hall : ∀ c ∈ ('-' :: natChars m), isPySpace c = false := by
    intro c hc
    rcases List.mem_cons.mp hc with h | h
    · subst h; decide
    · exact isPySpace_of_digit (natChars_digits m c h)
  rw [pyStripChars_eq_self hall]
  rw [show pyIntSigned ('-' :: natChars m)
        = if ('-' : Char) = '+' then natPart? (natChars m)
          else if ('-' : Char) = '-' then (natPart? (natChars m)).map (fun n => -n)
          else natPart? ('-' :: natChars m) from rfl]
  rw [if_neg (by decide), if_pos rfl]
  rw [natPart?_of_digits (natChars_ne_nil m) (natChars_digits m)]
  simp [parseNat_natChars]

theorem neg_data (m : Nat) : ("-" ++ natStr m).data = '-' :: natChars m := rfl

theorem zero_pad_data (m : Nat) : ("0" ++ natStr m).data = '0' :: natChars m := rfl

theorem pyInt?_intStr (z : Int) : pyInt? (intStr z) = some z := by
  unfold intStr
  by_cases hz : z < 0
  · rw [if_pos hz]
    unfold pyInt?
    rw [neg_data]
    rw [pyIntChars?_neg_digits]
    have : (-(z.natAbs : Int)) = z := by omega
    rw [this]
  · rw [if_neg hz, pyInt?_natStr]
    have : ((z.toNat : Int)) = z := by omega
    rw [this]

theorem pyInt?_format02 (z : Int) : pyInt? (format02 z) = some z := by
  unfold format02
  by_cases hz : z < 0
  · rw [if_pos hz]
    unfold pyInt?
    rw [neg_data]
    rw [pyIntChars?_neg_digits]
    have : (-(z.natAbs : Int)) = z := by omega
    rw [this]
  · rw [if_neg hz]
    by_cases h10 : z.toNat < 10
    · rw [if_pos h10]
      unfold pyInt?
      rw [zero_pad_data]
      have hall : ∀ c ∈ ('0' :: natChars z.toNat), isDigitC c = true := by
        intro c hc
        rcases List.mem_cons.mp hc with h | h
        · subst h; decide
        · exact natChars_digits _ c h
      rw [pyIntChars?_of_digits (by simp) hall]
      have hp : parseNat ('0' :: natChars z.toNat) = parseNat (natChars z.toNat) := by
        unfold parseNat
        rw [parseNatAux_cons, show 0 * 10 + charVal '0' = 0 from by decide]
      rw [hp, parseNat_natChars]
      have : ((z.toNat : Int)) = z := by omega
      rw [this]
    · rw [if_neg h10, pyInt?_natStr]
      have : ((z.toNat : Int)) = z := by omega
      rw [this]

/-- Every character of `format02 z` is a digit or the minus sign. -/
theorem format02_chars (z : Int) :
    ∀ c ∈ (format02 z).data, isDigitC c = true ∨ c = '-' := by
  intro c hc
  unfold format02 at hc
  by_cases hz : z < 0
  · rw [if_pos hz, neg_data] at hc
    rcases List.mem_cons.mp hc with h | h
    · right; exact h
    · left; exact natChars_digits _ c h
  · rw [if_neg hz] at hc
    by_cases h10 : z.toNat < 10
    · rw [if_pos h10, zero_pad_data] at hc
      rcases List.mem_cons.mp hc with h | h
      · left; subst h; decide
      · left; exact natChars_digits _ c h
    · rw [if_neg h10] at hc
      left
      exact natChars_digits _ c (by simpa [natStr] using hc)

/-- Every character of `intStr z` is a digit or the minus sign. -/
theorem intStr_chars (z : Int) :
    ∀ c ∈ (intStr z).data, isDigitC c = true ∨ c = '-' := by
  intro c hc
  unfold intStr at hc
  by_cases hz : z < 0
  · rw [if_pos hz, neg_data] at hc
    rcases List.mem_cons.mp hc with h | h
    · right; exact h
    · left; exact natChars_digits _ c h
  · rw [if_neg hz] at hc
    left
    exact natChars_digits _ c (by simpa [natStr] using hc)

/-! ### Lemmas: replace, split, startswith -/

theorem pyReplaceCharsAux_nil (pat rep : List Char) (fuel : Nat) :
    pyReplaceCharsAux pat rep fuel [] = [] := by
  cases fuel <;> rfl

theorem pyReplaceCharsAux_cons (pat rep : List Char) (fuel : Nat) (c : Char) (cs : List Char) :
    pyReplaceCharsAux pat rep (fuel + 1) (c :: cs)
      = if pat.isPrefixOf (c :: cs) then
          rep ++ pyReplaceCharsAux pat rep fuel (List.drop pat.length (c :: cs))
        else
          c :: pyReplaceCharsAux pat rep fuel cs := rfl

theorem pyReplaceCharsAux_fuel (pat rep : List Char) (hp : pat ≠ []) :
    ∀ f1 : Nat, ∀ cs : List Char, ∀ f2 : Nat, cs.length ≤ f1 → cs.length ≤ f2 →
      pyReplaceCharsAux pat rep f1 cs = pyReplaceCharsAux pat rep f2 cs := by
  intro f1
  induction f1 with
  | zero =>
    intro cs f2 h1 h2
    have hcs : cs = [] := List.eq_nil_of_length_eq_zero (by omega)
    subst hcs
    rw [pyReplaceCharsAux_nil, pyReplaceCharsAux_nil]
  | succ f1 ih =>
    intro cs f2 h1 h2
    cases cs with
    | nil => rw [pyReplaceCharsAux_nil, pyReplaceCharsAux_nil]
    | cons c cs =>
      cases f2 with
      | zero => simp at h2
      | succ f2 =>
        rw [pyReplaceCharsAux_cons, pyReplaceCharsAux_cons]
        have hplen : 1 ≤ pat.length := List.length_pos.mpr hp
        by_cases hpre : pat.isPrefixOf (c :: cs) = true
        · rw [if_pos hpre, if_pos hpre]
          congr 1
          apply ih
          · rw [List.length_drop]
            simp only [List.length_cons] at h1 ⊢
            omega
          · rw [List.length_drop]
            simp only [List.length_cons] at h2 ⊢
            omega
        · rw [if_neg hpre, if_neg hpre]
          congr 1
          apply ih
          · simp only [List.length_cons] at h1
            omega
          · simp only [List.length_cons] at h2
            omega

theorem isPrefixOf_append (l1 l2 : List Char) : l1.isPrefixOf (l1 ++ l2) = true := by
  induction l1 with
  | nil => cases l2 <;> rfl
  | cons c cs ih =>
    rw [List.cons_append,
      show (c :: cs).isPrefixOf (c :: (cs ++ l2)) = (c == c && cs.isPrefixOf (cs ++ l2)) from rfl,
      ih]
    simp

theorem isPrefixOf_cons_ne {a b : Char} (h : a ≠ b) (as bs : List Char) :
    (a :: as).isPrefixOf (b :: bs) = false := by
  rw [show (a :: as).isPrefixOf (b :: bs) = (a == b && as.isPrefixOf bs) from rfl]
  simp [h]

theorem pyReplaceChars_no_occur {p : Char} {ps cs : List Char} (h : p ∉ cs) (rep : List Char) :
    pyReplaceChars cs (p :: ps) rep = cs := by
  induction cs with
  | nil => rfl
  | cons c cs ih =>
    have hnc : p ≠ c := fun he => h (by simp [he])
    unfold pyReplaceChars
    rw [show (c :: cs).length = cs.length + 1 from rfl, pyReplaceCharsAux_cons,
      if_neg (by rw [isPrefixOf_cons_ne hnc]; exact Bool.false_ne_true)]
    have htl : p ∉ cs := fun hm => h (by simp [hm])
    have := ih htl
    unfold pyReplaceChars at this
    rw [this]

theorem pyReplaceChars_strip {p : Char} (ps : List Char) {rest : List Char} (h : p ∉ rest) :
    pyReplaceChars ((p :: ps) ++ rest) (p :: ps) [] = rest := by
  unfold pyReplaceChars
  rw [show (p :: ps) ++ rest = p :: (ps ++ rest) from rfl]
  rw [show (p :: (ps ++ rest)).length = (ps ++ rest).length + 1 from rfl]
  rw [pyReplaceCharsAux_cons]
  have hpre : (p :: ps).isPrefixOf (p :: (ps ++ rest)) = true := by
    rw [show p :: (ps ++ rest) = (p :: ps) ++ rest from rfl]
    exact isPrefixOf_append _ _
  rw [if_pos hpre]
  rw [show List.drop (p :: ps).length (p :: (ps ++ rest)) = rest by
    rw [show p :: (ps ++ rest) = (p :: ps) ++ rest from rfl]
    exact List.drop_left _ _]
  rw [List.nil_append]
  rw [pyReplaceCharsAux_fuel (p :: ps) [] (by simp) ((ps ++ rest).length) rest rest.length
    (by simp) le_rfl]
  exact pyReplaceChars_no_occur h []

theorem pySplitChars_cons (sep c : Char) (cs : List Char) :
    pySplitChars sep (c :: cs)
      = match pySplitChars sep cs with
        | [] => [[]]
        | g :: gs => if c = sep then [] :: g :: gs else (c :: g) :: gs := rfl

theorem pySplitChars_ne_nil (sep : Char) (cs : List Char) : pySplitChars sep cs ≠ [] := by
  induction cs with
  | nil => simp [pySplitChars]
  | cons c cs ih =>
    rw [pySplitChars_cons]
    rcases hsc : pySplitChars sep cs with _ | ⟨g, gs⟩
    · exact absurd hsc ih
    · by_cases hc : c = sep
      · simp [hc]
      · simp [hc]

theorem pySplitChars_append_sep (sep : Char) (ys : List Char) :
    ∀ xs : List Char, sep ∉ xs →
      pySplitChars sep (xs ++ sep :: ys) = xs :: pySplitChars sep ys := by
  intro xs
  induction xs with
  | nil =>
    intro _
    rw [List.nil_append, pySplitChars_cons]
    rcases hsc : pySplitChars sep ys with _ | ⟨g, gs⟩
    · exact absurd hsc (pySplitChars_ne_nil sep ys)
    · show (if sep = sep then [] :: g :: gs else (sep :: g) :: gs) = [] :: g :: gs
      rw [if_pos rfl]
  | cons x xs ih =>
    intro h
    have hx : x ≠ sep := fun he => h (by simp [he])
    have htl : sep ∉ xs := fun hm => h (by simp [hm])
    rw [List.cons_append, pySplitChars_cons, ih htl]
    show (if x = sep then [] :: xs :: pySplitChars sep ys
          else (x :: xs) :: pySplitChars sep ys) = (x :: xs) :: pySplitChars sep ys
    rw [if_neg hx]

theorem alookup_aupdate_self {β : Type} (l : List (String × β)) (k : String) (v : β) :
    alookup (aupdate l k v) k = some v := by
  induction l with
  | nil => simp [aupdate, alookup]
  | cons p rest ih =>
    by_cases hk : p.1 = k
    · rw [show aupdate (p :: rest) k v = if p.1 = k then (k, v) :: rest
            else p :: aupdate rest k v by cases p; rfl]
      rw [if_pos hk]
      simp [alookup]
    · rw [show aupdate (p :: rest) k v = if p.1 = k then (k, v) :: rest
            else p :: aupdate rest k v by cases p; rfl]
      rw [if_neg hk]
      rw [show alookup (p :: aupdate rest k v) k
            = if p.1 = k then some p.2 else alookup (aupdate rest k v) k by cases p; rfl]
      rw [if_neg hk]
      exact ih

theorem alookup_aupdate_ne {β : Type} (l : List (String × β)) {k k0 : String} (v : β)
    (h : k0 ≠ k) : alookup (aupdate l k0 v) k = alookup l k := by
  induction l with
  | nil => simp [aupdate, alookup, h]
  | cons p rest ih =>
    rw [show aupdate (p :: rest) k0 v = if p.1 = k0 then (k0, v) :: rest
          else p :: aupdate rest k0 v by cases p; rfl]
    by_cases hk : p.1 = k0
    · rw [if_pos hk]
      rw [show alookup ((k0, v) :: rest) k = if k0 = k then some v else alookup rest k from rfl]
      rw [if_neg h]
      rw [show alookup (p :: rest) k = if p.1 = k then some p.2 else alookup rest k by
        cases p; rfl]
      rw [if_neg (by rw [hk]; exact h)]
    · rw [if_neg hk]
      rw [show alookup (p :: aupdate rest k0 v) k
            = if p.1 = k then some p.2 else alookup (aupdate rest k0 v) k by cases p; rfl]
      rw [show alookup (p :: rest) k = if p.1 = k then some p.2 else alookup rest k by
        cases p; rfl]
      by_cases hpk : p.1 = k
      · rw [if_pos hpk, if_pos hpk]
      · rw [if_neg hpk, if_neg hpk]
        exact ih

theorem alookup_cons (p : String × β) (rest : List (String × β)) (k : String) :
    alookup (p :: rest) k = if p.1 = k then some p.2 else alookup rest k := by
  cases p
  rfl

/-- With duplicate-free keys (always true for a Python dict), membership
determines the lookup result. -/
theorem alookup_of_mem {β : Type} {l : List (String × β)} {k : String} {v : β}
    (hnd : (l.map Prod.fst).Nodup) (hm : (k, v) ∈ l) : alookup l k = some v := by
  induction l with
  | nil => simp at hm
  | cons p rest ih =>
    rw [alookup_cons]
    rcases List.mem_cons.mp hm with h | h
    · subst h
      rw [if_pos rfl]
    · have hk : p.1 ≠ k := by
        intro he
        have : k ∈ rest.map Prod.fst := List.mem_map.mpr ⟨(k, v), h, rfl⟩
        rw [List.map_cons, List.nodup_cons] at hnd
        exact hnd.1 (he ▸ this)
      rw [if_neg hk]
      exact ih (by rw [List.map_cons, List.nodup_cons] at hnd; exact hnd.2) h

/-! ### Claim theorems -/

/-- C3: loading a persisted store whose document contains citations
`{PLAN-01, PLAN-03, CIT-2-01}` and no counters entry reconstructs the
counters as the maximum observed suffix per family/block (plan counter 3,
block-2 counter 1), so the next planning id is `PLAN-04` and the next id
generated for block 2 is `CIT-2-02`. -/
theorem claim_C3_restart_consistency :
    (loadCitations (some fixtureDoc)).plan_counter = 3 ∧
    (loadCitations (some fixtureDoc)).block_counters = [("2", 1)] ∧
    (generatePlanCitationId (loadCitations (some fixtureDoc))).1 = "PLAN-04" ∧
    (generateResearchCitationId (loadCitations (some fixtureDoc)) "block_2").1
      = "CIT-2-02" := by
  refine ⟨?_, ?_, ?_, ?_⟩ <;> decide

/-- C4 counterexample: the claim says `generate_research_citation_id`
parses the trailing integer after the LAST underscore of `block_id`.  On
`"block_extra_7"` that rule yields block 7 (so a fresh store would have to
answer `CIT-7-01`), but the code parses `split("_")[1] = "extra"`, fails,
falls back to block 0 and returns `CIT-0-01`. -/
theorem claim_C4_counterexample :
    (generateResearchCitationId {} "block_extra_7").1 = "CIT-0-01" ∧
    specBlockNumLastSeg "block_extra_7" = some 7 ∧
    ("CIT-0-01" : String) ≠ "CIT-7-01" := by
  refine ⟨?_, ?_, ?_⟩ <;> decide

/-- C4 (amended): for every `block_id` string,
`generate_research_citation_id` parses the integer in the segment after the
FIRST underscore (`block_id.split("_")[1]`, which for a well-formed
`prefix_<int>` id is the trailing integer); on parse failure or absence of
an underscore it uses block number 0; it then increments that block's
counter and returns `CIT-<block_num>-<counter:02d>`, never raising (the
function is total). -/
theorem claim_C4_amended :
    (∀ (s : CMState) (block_id : String),
      (generateResearchCitationId s block_id).1
        = citIdStr (pyBlockNum block_id)
            ((alookup s.block_counters (intStr (pyBlockNum block_id))).getD 0 + 1)) ∧
    (∀ (p : String) (n : Nat), '_' ∉ p.data →
      pyBlockNum (p ++ "_" ++ natStr n) = n) ∧
    (∀ bid : String, bid.data.contains '_' = false → pyBlockNum bid = 0) ∧
    pyBlockNum "block_extra_7" = 0 := by
  refine ⟨?_, ?_, ?_, ?_⟩
  · intro s block_id
    unfold generateResearchCitationId citIdStr
    by_cases hc : acontains s.block_counters (intStr (pyBlockNum block_id)) = true
    · simp only [hc, if_true, if_pos]
    · have hc2 : acontains s.block_counters (intStr (pyBlockNum block_id)) = false :=
        Bool.eq_false_iff.mpr hc
      simp only [hc2, Bool.false_eq_true, if_false]
      rw [alookup_aupdate_self]
      have hnone : alookup s.block_counters (intStr (pyBlockNum block_id)) = none := by
        unfold acontains at hc2
        exact Option.not_isSome_iff_eq_none.mp (by rw [hc2]; simp)
      rw [hnone]
      rfl
  · intro p n hp
    unfold pyBlockNum
    have hdata : (p ++ "_" ++ natStr n).data = p.data ++ '_' :: natChars n := by
      rw [String.data_append, String.data_append]
      rw [show ("_" : String).data = ['_'] from rfl, show (natStr n).data = natChars n from rfl]
      rw [List.append_assoc]
      rfl
    have hne : p ++ "_" ++ natStr n ≠ "" := by
      intro he
      have hd2 : (p ++ "_" ++ natStr n).data = [] := by rw [he]
      rw [hdata] at hd2
      simp at hd2
    have hcontains : (p ++ "_" ++ natStr n).data.contains '_' = true := by
      rw [hdata]
      exact List.elem_eq_true_of_mem (List.mem_append.mpr (Or.inr (by simp)))
    rw [if_pos ⟨hne, hcontains⟩]
    unfold pySplit
    rw [hdata, pySplitChars_append_sep _ _ _ hp,
      pySplitChars_of_not_mem (fun hm =>
        (char_ne_of_digit (natChars_digits n _ hm) '_' (by decide)) rfl)]
    rw [show ([p.data, natChars n].map (fun cs => (⟨cs⟩ : String))).getD 1 ""
          = (⟨natChars n⟩ : String) from rfl]
    rw [show (⟨natChars n⟩ : String) = natStr n from rfl, pyInt?_natStr]
  · intro bid h
    unfold pyBlockNum
    rw [if_neg (fun hand => by rw [h] at hand; exact Bool.false_ne_true hand.2)]
  · decide

/-- C4 witness: the amended rule evaluated at concrete inputs — the
well-formed id `block_7` parses to block 7, and the generated id follows
the `CIT-<block>-<counter:02d>` format on a fresh store. -/
theorem claim_C4_amended_witness :
    pyBlockNum ("block" ++ "_" ++ natStr 7) = 7 ∧
    (generateResearchCitationId {} "block_7").1
      = citIdStr (pyBlockNum "block_7")
          ((alookup ({} : CMState).block_counters (intStr (pyBlockNum "block_7"))).getD 0 + 1) :=
  ⟨claim_C4_amended.2.1 "block" 7 (by decide), claim_C4_amended.1 {} "block_7"⟩

/-- C6: `add_citation` with `tool_type="web_search"` and a `raw_answer`
that is not valid JSON (the parse result is `none`, as for `"not json"`)
returns `True`, and the stored record carries the tool trace's query,
summary and timestamp together with an empty `web_sources` list. -/
theorem claim_C6_extraction_fallback :
    (addCitation {} "CIT-1-01" "web_search" fixtureTrace none true).1 = true ∧
    alookup (addCitation {} "CIT-1-01" "web_search" fixtureTrace none true).2.citations
        "CIT-1-01"
      = some { citation_id := "CIT-1-01", tool_type := "web_search",
               query := "what is X", summary := "a summary",
               timestamp := "2024-01-01T00:00:00", web_sources := [] } := by
  refine ⟨?_, ?_⟩ <;> decide

/-- C7 counterexample: when the persistence write raises (modelled by
`saveOk = false`, caught inside `_save_citations`), `add_citation` still
returns `True` — not `False` as claimed — and the record has been added to
the in-memory table while the persisted file is untouched, so the store is
left in exactly the half-finished state the claim rules out. -/
theorem claim_C7_counterexample :
    (addCitation {} "CIT-1-01" "run_code" fixtureTrace none false).1 = true ∧
    (addCitation {} "CIT-1-01" "run_code" fixtureTrace none false).2.citations
      ≠ ({} : CMState).citations ∧
    (addCitation {} "CIT-1-01" "run_code" fixtureTrace none false).2.savedFile
      = ({} : CMState).savedFile := by
  refine ⟨?_, ?_, ?_⟩ <;> decide

/-- C7 (amended): an exception during extraction is caught at the
`add_citation` boundary — the method returns `False` and the store
(citation table, counters, cache and persisted file) is exactly as before.
An exception during persistence, however, is caught inside
`_save_citations` and does not propagate: `add_citation` returns `True`
with the record stored in the in-memory table and the persisted file left
stale. -/
theorem claim_C7_amended :
    ∀ (s : CMState) (cid tt : String) (trace : ToolTrace) (raw : Option Json)
      (saveOk : Bool),
    (∀ e : Unit, extractCitationInfo cid tt trace raw = .error e →
      addCitation s cid tt trace raw saveOk = (false, s)) ∧
    (∀ info : Citation, extractCitationInfo cid tt trace raw = .ok info →
      addCitation s cid tt trace raw saveOk
          = (true, saveCitations { s with citations := aupdate s.citations cid info } saveOk) ∧
        (saveCitations { s with citations := aupdate s.citations cid info } saveOk).citations
          = aupdate s.citations cid info ∧
        (saveOk = false →
          (saveCitations { s with citations := aupdate s.citations cid info } saveOk).savedFile
            = s.savedFile)) := by
  intro s cid tt trace raw saveOk
  constructor
  · intro e he
    unfold addCitation
    rw [he]
  · intro info hi
    unfold addCitation
    rw [hi]
    refine ⟨rfl, ?_, ?_⟩
    · unfold saveCitations
      by_cases h : saveOk = true
      · rw [if_pos h]
      · rw [if_neg h]
    · intro hso
      subst hso
      unfold saveCitations
      rfl

/-- C7 witness: the amended behaviour at concrete inputs — a failing trace
attribute makes `add_citation` return `False` with the store untouched, and
a successful `run_code` extraction stores its record. -/
theorem claim_C7_amended_witness :
    addCitation {} "CIT-1-01" "run_code" { query := none } none true = (false, {}) ∧
    (addCitation {} "CIT-1-01" "run_code" fixtureTrace none true).2.citations
      = aupdate ({} : CMState).citations "CIT-1-01"
          { citation_id := "CIT-1-01", tool_type := "run_code",
            query := "what is X", summary := "a summary",
            timestamp := "2024-01-01T00:00:00" } :=
  ⟨(claim_C7_amended {} "CIT-1-01" "run_code" { query := none } none true).1 () rfl,
   ((claim_C7_amended {} "CIT-1-01" "run_code" fixtureTrace none true).2
      { citation_id := "CIT-1-01", tool_type := "run_code",
        query := "what is X", summary := "a summary",
        timestamp := "2024-01-01T00:00:00" } rfl).2.1⟩

/-- C9: `build_ref_number_map` is a pure function of the stored citations:
two successive builds with no intervening mutation return identical maps,
and rebuilding changes nothing in the store except the cached map field. -/
theorem claim_C9_idempotent_rebuild :
    ∀ s : CMState,
      (buildRefNumberMap (buildRefNumberMap s).2).1 = (buildRefNumberMap s).1 ∧
      (buildRefNumberMap s).2 = { s with ref_number_map := (buildRefNumberMap s).1 } ∧
      (buildRefNumberMap (buildRefNumberMap s).2).2 = (buildRefNumberMap s).2 := by
  intro s
  unfold buildRefNumberMap
  by_cases h : s.citations.isEmpty
  · simp only [h, if_true]
    exact ⟨trivial, trivial, trivial⟩
  · simp only [h, Bool.false_eq_true, if_false]
    exact ⟨trivial, trivial, trivial⟩

/-! ### Lemmas: effects of one generator call -/

theorem generatePlanCitationId_fst (s : CMState) :
    (generatePlanCitationId s).1 = planIdStr (s.plan_counter + 1) := rfl

theorem generatePlanCitationId_snd (s : CMState) :
    (generatePlanCitationId s).2 = { s with plan_counter := s.plan_counter + 1 } := rfl

theorem generateResearchCitationId_fst (s : CMState) (b : String) :
    (generateResearchCitationId s b).1
      = citIdStr (pyBlockNum b) (ctr s (blockKeyOf b) + 1) := by
  unfold generateResearchCitationId citIdStr ctr blockKeyOf
  by_cases hc : acontains s.block_counters (intStr (pyBlockNum b)) = true
  · simp only [hc, if_true, if_pos]
  · have hc2 : acontains s.block_counters (intStr (pyBlockNum b)) = false :=
      Bool.eq_false_iff.mpr hc
    simp only [hc2, Bool.false_eq_true, if_false]
    rw [alookup_aupdate_self]
    have hnone : alookup s.block_counters (intStr (pyBlockNum b)) = none := by
      unfold acontains at hc2
      exact Option.not_isSome_iff_eq_none.mp (by rw [hc2]; simp)
    rw [hnone]
    rfl

theorem generateResearchCitationId_plan (s : CMState) (b : String) :
    (generateResearchCitationId s b).2.plan_counter = s.plan_counter := rfl

theorem generateResearchCitationId_ctr_self (s : CMState) (b : String) :
    ctr (generateResearchCitationId s b).2 (blockKeyOf b)
      = ctr s (blockKeyOf b) + 1 := by
  unfold generateResearchCitationId ctr blockKeyOf
  by_cases hc : acontains s.block_counters (intStr (pyBlockNum b)) = true
  · simp only [hc, if_true, if_pos]
    rw [alookup_aupdate_self]
    rfl
  · have hc2 : acontains s.block_counters (intStr (pyBlockNum b)) = false :=
      Bool.eq_false_iff.mpr hc
    simp only [hc2, Bool.false_eq_true, if_false]
    rw [alookup_aupdate_self]
    have hnone : alookup s.block_counters (intStr (pyBlockNum b)) = none := by
      unfold acontains at hc2
      exact Option.not_isSome_iff_eq_none.mp (by rw [hc2]; simp)
    rw [alookup_aupdate_self, hnone]
    rfl

theorem generateResearchCitationId_ctr_other (s : CMState) (b : String) (key : String)
    (h : key ≠ blockKeyOf b) :
    ctr (generateResearchCitationId s b).2 key = ctr s key := by
  unfold generateResearchCitationId ctr
  unfold blockKeyOf at h
  have hne : intStr (pyBlockNum b) ≠ key := fun he => h he.symm
  by_cases hc : acontains s.block_counters (intStr (pyBlockNum b)) = true
  · simp only [hc, if_true, if_pos]
    rw [alookup_aupdate_ne _ _ hne]
  · have hc2 : acontains s.block_counters (intStr (pyBlockNum b)) = false :=
      Bool.eq_false_iff.mpr hc
    simp only [hc2, Bool.false_eq_true, if_false]
    rw [alookup_aupdate_ne _ _ hne, alookup_aupdate_ne _ _ hne]

theorem generatePlanCitationId_blocks (s : CMState) :
    (generatePlanCitationId s).2.block_counters = s.block_counters := rfl

/-! ### Lemmas: whole runs of the generators -/

theorem runPlan_getElem (n : Nat) :
    ∀ (s : CMState) (k : Nat), k < n →
      (runPlan s n)[k]? = some (planIdStr (s.plan_counter + k + 1)) := by
  induction n with
  | zero => intro s k hk; omega
  | succ n ih =>
    intro s k hk
    cases k with
    | zero =>
      rw [show runPlan s (n + 1)
            = (generatePlanCitationId s).1 :: runPlan (generatePlanCitationId s).2 n from rfl]
      rw [List.getElem?_cons_zero, generatePlanCitationId_fst]
      norm_num
    | succ k =>
      rw [show runPlan s (n + 1)
            = (generatePlanCitationId s).1 :: runPlan (generatePlanCitationId s).2 n from rfl]
      rw [List.getElem?_cons_succ, ih _ k (by omega), generatePlanCitationId_snd]
      congr 2
      push_cast
      ring

theorem countBK_cons (key b0 : String) (bs : List String) :
    countBK key (b0 :: bs)
      = countBK key bs + (if blockKeyOf b0 = key then 1 else 0) := by
  unfold countBK
  rw [List.countP_cons]
  by_cases h : blockKeyOf b0 = key
  · simp [h]
  · simp [h]

theorem runResearch_getElem :
    ∀ (bs : List String) (s : CMState) (i : Nat) (b : String), bs[i]? = some b →
      (runResearch s bs)[i]? = some (citIdStr (pyBlockNum b) (seqNumAt s bs b i)) := by
  intro bs
  induction bs with
  | nil => intro s i b hb; simp at hb
  | cons b0 bs ih =>
    intro s i b hb
    rw [show runResearch s (b0 :: bs)
          = (generateResearchCitationId s b0).1
              :: runResearch (generateResearchCitationId s b0).2 bs from rfl]
    cases i with
    | zero =>
      rw [List.getElem?_cons_zero] at hb
      injection hb with hb
      subst hb
      rw [List.getElem?_cons_zero, generateResearchCitationId_fst]
      unfold seqNumAt
      rw [show ((b0 :: bs).take 0 : List String) = [] from rfl,
        show countBK (blockKeyOf b0) [] = 0 from rfl]
      norm_num
    | succ i =>
      rw [List.getElem?_cons_succ] at hb
      rw [List.getElem?_cons_succ, ih _ i b hb]
      congr 2
      unfold seqNumAt
      rw [show (b0 :: bs).take (i + 1) = b0 :: bs.take i from rfl, countBK_cons]
      by_cases hk : blockKeyOf b0 = blockKeyOf b
      · rw [if_pos hk, ← hk, generateResearchCitationId_ctr_self]
        push_cast
        ring
      · rw [if_neg hk, generateResearchCitationId_ctr_other _ _ _ (fun he => hk he.symm)]
        push_cast
        ring

/-- Monotonicity of the block count over growing prefixes that contain a
matching request in between. -/
theorem countBK_take_lt {bs : List String} {i j : Nat} {b : String}
    (hij : i < j) (hb : bs[i]? = some b) :
    countBK (blockKeyOf b) (bs.take i) < countBK (blockKeyOf b) (bs.take j) := by
  have hj : bs.take j = bs.take i ++ (bs.drop i).take (j - i) := by
    rw [← List.take_add]
    congr 1
    omega
  rw [hj]
  unfold countBK
  rw [List.countP_append]
  have hdrop : (bs.drop i)[0]? = some b := by
    rw [List.getElem?_drop]
    simpa using hb
  rcases hd : bs.drop i with _ | ⟨x, rest⟩
  · rw [hd] at hdrop; simp at hdrop
  · rw [hd] at hdrop
    rw [List.getElem?_cons_zero] at hdrop
    injection hdrop with hx
    have hji : j - i = (j - i - 1) + 1 := by omega
    rw [hji, show (x :: rest).take ((j - i - 1) + 1) = x :: rest.take (j - i - 1) from rfl,
      List.countP_cons]
    rw [show (blockKeyOf x == blockKeyOf b) = true from beq_iff_eq.mpr (by rw [hx])]
    simp

/-- Stripping the `PLAN-` prefix of a generated planning id leaves exactly
its zero-padded counter. -/
theorem pyReplace_planId (a : Int) :
    pyReplace (planIdStr a) "PLAN-" "" = format02 a := by
  unfold planIdStr pyReplace
  rw [String.data_append]
  rw [show ("PLAN-" : String).data = 'P' :: ['L', 'A', 'N', '-'] from rfl]
  rw [show ("" : String).data = [] from rfl]
  rw [show ('P' :: ['L', 'A', 'N', '-']) ++ (format02 a).data
        = (['P', 'L', 'A', 'N', '-'] : List Char) ++ (format02 a).data from rfl]
  rw [show (['P', 'L', 'A', 'N', '-'] : List Char) ++ (format02 a).data
        = ('P' :: ['L', 'A', 'N', '-']) ++ (format02 a).data from rfl]
  rw [pyReplaceChars_strip _ (fun hm => by
    rcases format02_chars a _ hm with hdig | hdash
    · exact (char_ne_of_digit hdig 'P' (by decide)) rfl
    · exact absurd hdash (by decide))]

/-- The map `planIdStr` is injective (the zero-padded suffix determines the id and
conversely). -/
theorem planIdStr_inj {a b : Int} (h : planIdStr a = planIdStr b) : a = b := by
  unfold planIdStr at h
  have hd : ("PLAN-" ++ format02 a).data = ("PLAN-" ++ format02 b).data := by rw [h]
  rw [String.data_append, String.data_append] at hd
  have hf : (format02 a).data = (format02 b).data := List.append_cancel_left hd
  have hfs : format02 a = format02 b := String.ext hf
  have := pyInt?_format02 a
  rw [hfs, pyInt?_format02 b] at this
  injection this with h2
  omega

/-- The map `citIdStr` is injective in the sequence number. -/
theorem citIdStr_inj_seq {β k1 k2 : Int} (h : citIdStr β k1 = citIdStr β k2) : k1 = k2 := by
  unfold citIdStr at h
  have hd := congrArg String.data h
  rw [String.data_append, String.data_append] at hd
  have hf : (format02 k1).data = (format02 k2).data := List.append_cancel_left hd
  have hfs : format02 k1 = format02 k2 := String.ext hf
  have := pyInt?_format02 k1
  rw [hfs, pyInt?_format02 k2] at this
  injection this with h2
  omega

/-- C2: on one store, the numeric suffixes of successive
`generate_plan_citation_id` ids are strictly increasing and no id repeats;
for a fixed block id `b`, successive `generate_research_citation_id(b)`
calls return CIT ids whose per-block sequence numbers are strictly
increasing and never repeat; and the counters advance independently —
research calls for a different block key leave a block's counter unchanged,
research calls leave the plan counter unchanged, and plan calls leave the
block counters unchanged. -/
theorem claim_C2_id_monotonicity :
    (∀ (a : Int), pyInt? (pyReplace (planIdStr a) "PLAN-" "") = some a) ∧
    (∀ (s : CMState) (n k : Nat), k < n →
      (runPlan s n)[k]? = some (planIdStr (s.plan_counter + k + 1))) ∧
    (∀ (s : CMState) (n i j : Nat), i < j → j < n →
      (s.plan_counter + i + 1 : Int) < s.plan_counter + j + 1 ∧
      (runPlan s n)[i]? ≠ (runPlan s n)[j]?) ∧
    (∀ (s : CMState) (bs : List String) (b : String) (i j : Nat),
      i < j → bs[i]? = some b → bs[j]? = some b →
      (runResearch s bs)[i]? = some (citIdStr (pyBlockNum b) (seqNumAt s bs b i)) ∧
      (runResearch s bs)[j]? = some (citIdStr (pyBlockNum b) (seqNumAt s bs b j)) ∧
      seqNumAt s bs b i < seqNumAt s bs b j ∧
      (runResearch s bs)[i]? ≠ (runResearch s bs)[j]?) ∧
    (∀ (s : CMState) (b : String) (key : String), key ≠ blockKeyOf b →
      ctr (generateResearchCitationId s b).2 key = ctr s key) ∧
    (∀ (s : CMState) (b : String),
      (generateResearchCitationId s b).2.plan_counter = s.plan_counter) ∧
    (∀ s : CMState, (generatePlanCitationId s).2.block_counters = s.block_counters) := by
  refine ⟨?_, ?_, ?_, ?_, ?_, ?_, ?_⟩
  · intro a
    rw [pyReplace_planId a]
    exact pyInt?_format02 a
  · intro s n k hk
    exact runPlan_getElem n s k hk
  · intro s n i j hij hj
    refine ⟨by omega, ?_⟩
    rw [runPlan_getElem n s i (by omega), runPlan_getElem n s j hj]
    intro he
    injection he with he
    have := planIdStr_inj he
    omega
  · intro s bs b i j hij hbi hbj
    have hri := runResearch_getElem bs s i b hbi
    have hrj := runResearch_getElem bs s j b hbj
    have hmono : seqNumAt s bs b i < seqNumAt s bs b j := by
      unfold seqNumAt
      have := countBK_take_lt hij hbi
      omega
    refine ⟨hri, hrj, hmono, ?_⟩
    rw [hri, hrj]
    intro he
    injection he with he
    have := citIdStr_inj_seq he
    omega
  · intro s b key h
    exact generateResearchCitationId_ctr_other s b key h
  · intro s b
    exact generateResearchCitationId_plan s b
  · intro s
    exact generatePlanCitationId_blocks s

/-- C2 witness: three plan calls and three research calls (blocks 5, 3, 5)
on a fresh store, instantiating the monotonicity statement at concrete
positions. -/
theorem claim_C2_witness :
    ((0 : Nat) < 1 ∧ (1 : Nat) < 3) ∧
    ((runPlan {} 3)[0]? ≠ (runPlan {} 3)[1]?) ∧
    (seqNumAt {} ["block_5", "block_3", "block_5"] "block_5" 0
        < seqNumAt {} ["block_5", "block_3", "block_5"] "block_5" 2 ∧
      (runResearch {} ["block_5", "block_3", "block_5"])[0]?
        ≠ (runResearch {} ["block_5", "block_3", "block_5"])[2]?) :=
  ⟨⟨by decide, by decide⟩,
   (claim_C2_id_monotonicity.2.2.1 {} 3 0 1 (by decide) (by decide)).2,
   ⟨(claim_C2_id_monotonicity.2.2.2.1 {} ["block_5", "block_3", "block_5"] "block_5" 0 2
       (by decide) (by decide) (by decide)).2.2.1,
    (claim_C2_id_monotonicity.2.2.2.1 {} ["block_5", "block_3", "block_5"] "block_5" 0 2
       (by decide) (by decide) (by decide)).2.2.2⟩⟩

theorem alookup_mem {β : Type} {l : List (String × β)} {k : String} {v : β}
    (h : alookup l k = some v) : (k, v) ∈ l := by
  induction l with
  | nil => simp [alookup] at h
  | cons p rest ih =>
    rw [alookup_cons] at h
    by_cases hk : p.1 = k
    · rw [if_pos hk] at h
      injection h with h
      rcases p with ⟨pk, pv⟩
      simp only [] at hk h
      subst hk
      subst h
      exact List.mem_cons_self _ _
    · rw [if_neg hk] at h
      exact List.mem_cons.mpr (Or.inr (ih h))

theorem alookup_eq_none_mem {β : Type} {l : List (String × β)} {k : String}
    (h : alookup l k = none) : ∀ p ∈ l, p.1 ≠ k := by
  induction l with
  | nil => intro p hp; simp at hp
  | cons q rest ih =>
    intro p hp
    rw [alookup_cons] at h
    by_cases hk : q.1 = k
    · rw [if_pos hk] at h; cases h
    · rw [if_neg hk] at h
      rcases List.mem_cons.mp hp with he | he
      · rw [he]; exact hk
      · exact ih h p he

theorem refStep_inv {st : RefBuild} (h : RefInv st) (u : RefUnit) :
    RefInv (refStep st u) := by
  obtain ⟨h1, h2, h3⟩ := h
  unfold refStep
  cases hlk : alookup st.seen u.dedupKey with
  | some n =>
    refine ⟨h1, h2, ?_⟩
    intro t ht
    rcases List.mem_append.mp ht with hm | hm
    · exact h3 t hm
    · have ht2 : t = (u, n, false) := by simpa using hm
      subst ht2
      exact alookup_mem hlk
  | none =>
    refine ⟨?_, ?_, ?_⟩
    · intro p hp
      rcases List.mem_append.mp hp with hm | hm
      · have := h1 p hm
        constructor
        · exact this.1
        · have h2' := this.2
          simp only []
          omega
      · have hp2 : p = (u.dedupKey, st.ref_idx + 1) := by simpa using hm
        subst hp2
        exact ⟨by omega, le_rfl⟩
    · intro p hp q hq
      rcases List.mem_append.mp hp with hmp | hmp <;>
        rcases List.mem_append.mp hq with hmq | hmq
      · exact h2 p hmp q hmq
      · have hq2 : q = (u.dedupKey, st.ref_idx + 1) := by simpa using hmq
        subst hq2
        constructor
        · intro he
          exact absurd he (alookup_eq_none_mem hlk p hmp)
        · intro he
          have := (h1 p hmp).2
          omega
      · have hp2 : p = (u.dedupKey, st.ref_idx + 1) := by simpa using hmp
        subst hp2
        constructor
        · intro he
          exact absurd he.symm (alookup_eq_none_mem hlk q hmq)
        · intro he
          have := (h1 q hmq).2
          omega
      · have hp2 : p = (u.dedupKey, st.ref_idx + 1) := by simpa using hmp
        have hq2 : q = (u.dedupKey, st.ref_idx + 1) := by simpa using hmq
        subst hp2
        subst hq2
        simp
    · intro t ht
      rcases List.mem_append.mp ht with hm | hm
      · exact List.mem_append.mpr (Or.inl (h3 t hm))
      · have ht2 : t = (u, st.ref_idx + 1, true) := by simpa using hm
        subst ht2
        exact List.mem_append.mpr (Or.inr (by simp))

theorem foldl_refStep_inv :
    ∀ (units : List RefUnit) (st : RefBuild), RefInv st →
      RefInv (units.foldl refStep st) := by
  intro units
  induction units with
  | nil => intro st h; exact h
  | cons u us ih =>
    intro st h
    exact ih _ (refStep_inv h u)

theorem buildRefState_inv (cits : List (String × Citation)) :
    RefInv (buildRefState cits) := by
  apply foldl_refStep_inv
  refine ⟨?_, ?_, ?_⟩ <;> (intro p hp; simp at hp)

theorem refStep_trace (st : RefBuild) (u : RefUnit) :
    ∃ n f, (refStep st u).trace = st.trace ++ [(u, n, f)] := by
  unfold refStep
  cases alookup st.seen u.dedupKey with
  | some n => exact ⟨n, false, rfl⟩
  | none => exact ⟨st.ref_idx + 1, true, rfl⟩

theorem foldl_refStep_trace :
    ∀ (units : List RefUnit) (st : RefBuild),
      ((units.foldl refStep st).trace).map (fun t => t.1)
        = st.trace.map (fun t => t.1) ++ units := by
  intro units
  induction units with
  | nil => intro st; simp
  | cons u us ih =>
    intro st
    rw [show (u :: us).foldl refStep st = us.foldl refStep (refStep st u) from rfl, ih]
    obtain ⟨n, f, hf⟩ := refStep_trace st u
    rw [hf, List.map_append]
    simp

/-- Every processed unit appears in the assignment trace. -/
theorem refTrace_of_unit {cits : List (String × Citation)} {u : RefUnit}
    (h : u ∈ refUnits cits) : ∃ n f, (u, n, f) ∈ refTrace cits := by
  have htr : (refTrace cits).map (fun t => t.1) = refUnits cits := by
    unfold refTrace buildRefState
    rw [foldl_refStep_trace]
    simp
  rw [← htr] at h
  obtain ⟨t, ht, h1⟩ := List.mem_map.mp h
  refine ⟨t.2.1, t.2.2, ?_⟩
  rw [show ((u, t.2.1, t.2.2) : RefUnit × Nat × Bool) = t by rw [← h1]]
  exact ht

/-- Dedup key of any citation that is not a `paper_search`. -/
theorem getCitationDedupKey_nonpaper (c : Citation) (po : Option Paper)
    (h : pyLower c.tool_type ≠ "paper_search") :
    getCitationDedupKey c po = "unique:" ++ c.citation_id := by
  cases po <;> simp [getCitationDedupKey, h]

/-- Dedup key of a `paper_search` paper with a non-empty normalized title. -/
theorem getCitationDedupKey_paper_titled (c : Citation) (p : Paper)
    (h : pyLower c.tool_type = "paper_search") (ht : pyStrip (pyLower p.title) ≠ "") :
    getCitationDedupKey c (some p)
      = "paper:" ++ pyStrip (pyLower p.title) ++ "|" ++ firstAuthorNormalized p.authors := by
  simp only [getCitationDedupKey, h, if_true, firstAuthorNormalized]
  rw [if_pos ht]

/-- Dedup key of a `paper_search` paper whose normalized title is empty. -/
theorem getCitationDedupKey_paper_untitled (c : Citation) (p : Paper)
    (h : pyLower c.tool_type = "paper_search") (ht : pyStrip (pyLower p.title) = "") :
    getCitationDedupKey c (some p) = "unique:" ++ c.citation_id := by
  simp only [getCitationDedupKey, h, if_true]
  rw [if_neg (by rw [ht]; simp)]

/-- The unit produced for a non-`paper_search` citation. -/
theorem citationRefUnits_nonpaper {k : String} {c : Citation}
    (h : pyLower c.tool_type ≠ "paper_search") :
    citationRefUnits k c = [⟨[k], "unique:" ++ c.citation_id⟩] := by
  unfold citationRefUnits
  rw [if_neg h, getCitationDedupKey_nonpaper c none h]

/-- A stored non-paper citation contributes its bare-key unit to the
processed unit list. -/
theorem refUnits_mem_nonpaper {cits : List (String × Citation)} {k : String}
    {c : Citation} (hnd : (cits.map Prod.fst).Nodup) (hm : (k, c) ∈ cits)
    (hnp : pyLower c.tool_type ≠ "paper_search") :
    (⟨[k], "unique:" ++ c.citation_id⟩ : RefUnit) ∈ refUnits cits := by
  unfold refUnits
  apply List.mem_flatten.mpr
  refine ⟨citationRefUnits k c, ?_, ?_⟩
  · apply List.mem_map.mpr
    refine ⟨(k, c), ?_, rfl⟩
    apply List.mem_filterMap.mpr
    refine ⟨k, ?_, ?_⟩
    · unfold sortedCitationIds
      apply (List.perm_insertionSort citLE (cits.map Prod.fst)).mem_iff.mpr
      exact List.mem_map.mpr ⟨(k, c), hm, rfl⟩
    · rw [alookup_of_mem hnd hm]
      rfl
  · rw [citationRefUnits_nonpaper hnp]
    simp

/-- Left cancellation for string append. -/
theorem str_append_cancel {a b c : String} (h : a ++ b = a ++ c) : b = c := by
  have hd := congrArg String.data h
  rw [String.data_append, String.data_append] at hd
  exact String.ext (List.append_cancel_left hd)

/-- C1: in the reference-number assignment performed by
`build_ref_number_map` over any stored citation table (duplicate-free keys,
records carrying their own key as `citation_id`), two processed entries
receive the same reference number if and only if they have the same dedup
key; the dedup key of a `paper_search` paper with non-empty normalized
title is `"paper:" + title + "|" + first author` (lower-cased, stripped),
the dedup key of a titleless paper and of every non-paper citation is
`"unique:" + citation_id`; consequently two distinct non-paper citations
never share a reference number. -/
theorem claim_C1_dedup_ref_numbers :
    ∀ (cits : List (String × Citation)),
      (cits.map Prod.fst).Nodup →
      (∀ p ∈ cits, p.2.citation_id = p.1) →
      ((∀ t1 ∈ refTrace cits, ∀ t2 ∈ refTrace cits,
          t1.2.1 = t2.2.1 ↔ t1.1.dedupKey = t2.1.dedupKey) ∧
       (∀ (c : Citation) (p : Paper), pyLower c.tool_type = "paper_search" →
          pyStrip (pyLower p.title) ≠ "" →
          getCitationDedupKey c (some p)
            = "paper:" ++ pyStrip (pyLower p.title) ++ "|"
                ++ firstAuthorNormalized p.authors) ∧
       (∀ (c : Citation) (p : Paper), pyLower c.tool_type = "paper_search" →
          pyStrip (pyLower p.title) = "" →
          getCitationDedupKey c (some p) = "unique:" ++ c.citation_id) ∧
       (∀ (c : Citation) (po : Option Paper), pyLower c.tool_type ≠ "paper_search" →
          getCitationDedupKey c po = "unique:" ++ c.citation_id) ∧
       (∀ k c, (k, c) ∈ cits → pyLower c.tool_type ≠ "paper_search" →
          ∃ n f, ((⟨[k], "unique:" ++ k⟩ : RefUnit), n, f) ∈ refTrace cits) ∧
       (∀ k1 c1 k2 c2, (k1, c1) ∈ cits → (k2, c2) ∈ cits → k1 ≠ k2 →
          pyLower c1.tool_type ≠ "paper_search" →
          pyLower c2.tool_type ≠ "paper_search" →
          ∀ n1 f1 n2 f2,
            ((⟨[k1], "unique:" ++ k1⟩ : RefUnit), n1, f1) ∈ refTrace cits →
            ((⟨[k2], "unique:" ++ k2⟩ : RefUnit), n2, f2) ∈ refTrace cits →
            n1 ≠ n2)) := by
  intro cits hnd hwf
  have hinv := buildRefState_inv cits
  obtain ⟨hbound, hbij, hseen⟩ := hinv
  have hiff : ∀ t1 ∈ refTrace cits, ∀ t2 ∈ refTrace cits,
      t1.2.1 = t2.2.1 ↔ t1.1.dedupKey = t2.1.dedupKey := by
    intro t1 ht1 t2 ht2
    have h1 := hseen t1 ht1
    have h2 := hseen t2 ht2
    exact (hbij (t1.1.dedupKey, t1.2.1) h1 (t2.1.dedupKey, t2.2.1) h2).symm
  refine ⟨hiff, ?_, ?_, ?_, ?_, ?_⟩
  · intro c p h ht
    exact getCitationDedupKey_paper_titled c p h ht
  · intro c p h ht
    exact getCitationDedupKey_paper_untitled c p h ht
  · intro c po h
    exact getCitationDedupKey_nonpaper c po h
  · intro k c hm hnp
    have hu := refUnits_mem_nonpaper hnd hm hnp
    rw [hwf (k, c) hm] at hu
    exact refTrace_of_unit hu
  · intro k1 c1 k2 c2 hm1 hm2 hk hnp1 hnp2 n1 f1 n2 f2 ht1 ht2
    intro hn
    have := (hiff _ ht1 _ ht2).mp hn
    simp only [] at this
    exact hk (str_append_cancel this)

/-- C1 witness: the dedup-key/ref-number equivalence evaluated on a
concrete table — the duplicated paper of `CIT-2-01` shares its number with
paper 1 of `CIT-1-01` (equal dedup keys), and the two web citations get
different numbers (distinct `unique:` keys). -/
theorem claim_C1_witness :
    ((3 : Nat) = 3 ↔
      ("paper:deep learning|a. smith" : String) = "paper:deep learning|a. smith") ∧
    ((1 : Nat) = 2 ↔ ("unique:PLAN-01" : String) = "unique:PLAN-02") :=
  ⟨(claim_C1_dedup_ref_numbers fixtureTable (by decide) (by decide)).1
      (⟨⟨["CIT-1-01", "CIT-1-01-1"], "paper:deep learning|a. smith"⟩, 3, true⟩
        : RefUnit × Nat × Bool) (by decide)
      (⟨⟨["CIT-2-01", "CIT-2-01-1"], "paper:deep learning|a. smith"⟩, 3, false⟩
        : RefUnit × Nat × Bool) (by decide),
   (claim_C1_dedup_ref_numbers fixtureTable (by decide) (by decide)).1
      (⟨⟨["PLAN-01"], "unique:PLAN-01"⟩, 1, true⟩ : RefUnit × Nat × Bool) (by decide)
      (⟨⟨["PLAN-02"], "unique:PLAN-02"⟩, 2, true⟩ : RefUnit × Nat × Bool) (by decide)⟩

/-! ### Sort-key lemmas and the 1-based ordinal walk -/

theorem intStr_nonneg_digits {z : Int} (hz : ¬ z < 0) :
    ∀ c ∈ (intStr z).data, isDigitC c = true := by
  intro c hc
  unfold intStr at hc
  rw [if_neg hz] at hc
  exact natChars_digits _ c (by simpa [natStr] using hc)

theorem format02_nonneg_digits {z : Int} (hz : ¬ z < 0) :
    ∀ c ∈ (format02 z).data, isDigitC c = true := by
  intro c hc
  unfold format02 at hc
  rw [if_neg hz] at hc
  by_cases h10 : z.toNat < 10
  · rw [if_pos h10, zero_pad_data] at hc
    rcases List.mem_cons.mp hc with h | h
    · subst h; decide
    · exact natChars_digits _ c h
  · rw [if_neg h10] at hc
    exact natChars_digits _ c (by simpa [natStr] using hc)

/-- The sort key of a generated planning id is `(0, 0, suffix)`. -/
theorem extractCitationSortKey_planId (z : Int) :
    extractCitationSortKey (planIdStr z) = (0, 0, z) := by
  unfold extractCitationSortKey
  have hsw : pyStartsWith (planIdStr z) "PLAN-" = true := by
    unfold pyStartsWith planIdStr
    rw [String.data_append]
    exact isPrefixOf_append _ _
  rw [if_pos hsw, pyReplace_planId, pyInt?_format02]

theorem citIdStr_data (b k : Int) :
    (citIdStr b k).data
      = ('C' :: ['I', 'T', '-']) ++ ((intStr b).data ++ '-' :: (format02 k).data) := by
  unfold citIdStr
  rw [String.data_append, String.data_append, String.data_append]
  rw [show ("CIT-" : String).data = ['C', 'I', 'T', '-'] from rfl,
    show ("-" : String).data = ['-'] from rfl]
  simp [List.append_assoc]

/-- The sort key of a generated research id with non-negative block and
sequence numbers is `(1, block, seq)`. -/
theorem extractCitationSortKey_citId (b k : Nat) :
    extractCitationSortKey (citIdStr (b : Int) (k : Int)) = (1, (b : Int), (k : Int)) := by
  have hbnn : ¬ ((b : Int) < 0) := by omega
  have hknn : ¬ ((k : Int) < 0) := by omega
  have hdata := citIdStr_data (b : Int) (k : Int)
  have hnotC : 'C' ∉ (intStr (b : Int)).data ++ '-' :: (format02 (k : Int)).data := by
    intro hm
    rcases List.mem_append.mp hm with h | h
    · exact (char_ne_of_digit (intStr_nonneg_digits hbnn _ h) 'C' (by decide)) rfl
    · rcases List.mem_cons.mp h with h | h
      · exact absurd h (by decide)
      · exact (char_ne_of_digit (format02_nonneg_digits hknn _ h) 'C' (by decide)) rfl
  unfold extractCitationSortKey
  have hsw : pyStartsWith (citIdStr (b : Int) (k : Int)) "PLAN-" = false := by
    unfold pyStartsWith
    rw [hdata, show ("PLAN-" : String).data = 'P' :: ['L', 'A', 'N', '-'] from rfl]
    rw [show ('C' :: ['I', 'T', '-'])
            ++ ((intStr (b : Int)).data ++ '-' :: (format02 (k : Int)).data)
          = 'C' :: (['I', 'T', '-']
            ++ ((intStr (b : Int)).data ++ '-' :: (format02 (k : Int)).data)) from rfl]
    exact isPrefixOf_cons_ne (by decide) _ _
  rw [if_neg (by rw [hsw]; exact Bool.false_ne_true)]
  have hrep : pyReplace (citIdStr (b : Int) (k : Int)) "CIT-" ""
      = ⟨(intStr (b : Int)).data ++ '-' :: (format02 (k : Int)).data⟩ := by
    unfold pyReplace
    rw [hdata, show ("CIT-" : String).data = 'C' :: ['I', 'T', '-'] from rfl,
      show ("" : String).data = [] from rfl]
    rw [pyReplaceChars_strip _ hnotC]
  rw [hrep]
  unfold pySplit
  rw [data_mk]
  rw [pySplitChars_append_sep '-' _ _ (fun hm =>
    (char_ne_of_digit (intStr_nonneg_digits hbnn _ hm) '-' (by decide)) rfl)]
  rw [pySplitChars_of_not_mem (fun hm =>
    (char_ne_of_digit (format02_nonneg_digits hknn _ hm) '-' (by decide)) rfl)]
  rw [if_pos (show (List.map (fun cs => (⟨cs⟩ : String))
        [(intStr (b : Int)).data, (format02 (k : Int)).data]).length = 2 from rfl)]
  rw [show (List.map (fun cs => (⟨cs⟩ : String))
        [(intStr (b : Int)).data, (format02 (k : Int)).data]).getD 0 ""
      = intStr (b : Int) from rfl]
  rw [show (List.map (fun cs => (⟨cs⟩ : String))
        [(intStr (b : Int)).data, (format02 (k : Int)).data]).getD 1 ""
      = format02 (k : Int) from rfl]
  rw [pyInt?_intStr, pyInt?_format02]

/-- Every sort key is a planning key, a research key, or the sentinel. -/
theorem extractCitationSortKey_cases (cid : String) :
    (∃ n, extractCitationSortKey cid = (0, 0, n)) ∨
    (∃ b n, extractCitationSortKey cid = (1, b, n)) ∨
    extractCitationSortKey cid = (999, 999, 999) := by
  unfold extractCitationSortKey
  by_cases hsw : pyStartsWith cid "PLAN-" = true
  · rw [if_pos hsw]
    rcases hm : pyInt? (pyReplace cid "PLAN-" "") with _ | n
    · right; right; rfl
    · left; exact ⟨n, rfl⟩
  · rw [if_neg hsw]
    by_cases hlen : (pySplit (pyReplace cid "CIT-" "") '-').length = 2
    · rw [if_pos hlen]
      rcases hm0 : pyInt? ((pySplit (pyReplace cid "CIT-" "") '-').getD 0 "") with _ | b
      · right; right; rfl
      · rcases hm1 : pyInt? ((pySplit (pyReplace cid "CIT-" "") '-').getD 1 "") with _ | n
        · right; right; rfl
        · right; left; exact ⟨b, n, rfl⟩
    · rw [if_neg hlen]
      right; right; rfl

theorem freshNums_append (t1 t2 : List (RefUnit × Nat × Bool)) :
    freshNums (t1 ++ t2) = freshNums t1 ++ freshNums t2 := by
  simp [freshNums]

theorem foldl_refIdx_le :
    ∀ (units : List RefUnit) (st : RefBuild),
      st.ref_idx ≤ (units.foldl refStep st).ref_idx := by
  intro units
  induction units with
  | nil => intro st; exact le_rfl
  | cons u us ih =>
    intro st
    have h1 : st.ref_idx ≤ (refStep st u).ref_idx := by
      unfold refStep
      cases alookup st.seen u.dedupKey with
      | some n => exact le_rfl
      | none => exact Nat.le_succ _
    exact le_trans h1 (ih (refStep st u))

theorem freshNums_foldl :
    ∀ (units : List RefUnit) (st : RefBuild),
      freshNums ((units.foldl refStep st).trace)
        = freshNums st.trace
            ++ List.range' (st.ref_idx + 1)
                ((units.foldl refStep st).ref_idx - st.ref_idx) := by
  intro units
  induction units with
  | nil =>
    intro st
    simp
  | cons u us ih =>
    intro st
    rw [show (u :: us).foldl refStep st = us.foldl refStep (refStep st u) from rfl, ih]
    cases hlk : alookup st.seen u.dedupKey with
    | some n =>
      have h1 : (refStep st u).trace = st.trace ++ [(u, n, false)] := by
        unfold refStep; rw [hlk]
      have h2 : (refStep st u).ref_idx = st.ref_idx := by
        unfold refStep; rw [hlk]
      rw [h1, h2, freshNums_append, show freshNums [(u, n, false)] = [] from rfl,
        List.append_nil]
    | none =>
      have h1 : (refStep st u).trace = st.trace ++ [(u, st.ref_idx + 1, true)] := by
        unfold refStep; rw [hlk]
      have h2 : (refStep st u).ref_idx = st.ref_idx + 1 := by
        unfold refStep; rw [hlk]
      have hF : (refStep st u).ref_idx ≤ (us.foldl refStep (refStep st u)).ref_idx :=
        foldl_refIdx_le us (refStep st u)
      rw [h2] at hF
      rw [h1, h2, freshNums_append,
        show freshNums [(u, st.ref_idx + 1, true)] = [st.ref_idx + 1] from rfl,
        List.append_assoc]
      congr 1
      have hsub : (us.foldl refStep (refStep st u)).ref_idx - st.ref_idx
          = ((us.foldl refStep (refStep st u)).ref_idx - (st.ref_idx + 1)) + 1 := by
        omega
      rw [hsub]
      rw [show List.range' (st.ref_idx + 1)
            (((us.foldl refStep (refStep st u)).ref_idx - (st.ref_idx + 1)) + 1)
          = (st.ref_idx + 1)
              :: List.range' (st.ref_idx + 1 + 1)
                  ((us.foldl refStep (refStep st u)).ref_idx - (st.ref_idx + 1)) from rfl]
      rfl

/-- Over a whole build, the freshly allocated reference numbers are exactly
`1, 2, …, ref_idx` in walk order. -/
theorem freshNums_refTrace (cits : List (String × Citation)) :
    freshNums (refTrace cits) = List.range' 1 (buildRefState cits).ref_idx := by
  unfold refTrace buildRefState
  rw [freshNums_foldl]
  simp [freshNums]

/-- C5: `build_ref_number_map` walks the citation ids in sort-key order and
assigns 1-based consecutive ordinals to fresh dedup keys; the sort key of a
generated `PLAN-<NN>` id is `(0, 0, NN)`, that of a generated `CIT-<B>-<NN>`
id is `(1, B, NN)` (so every planning id sorts strictly before every
research id, planning ids sort by suffix and research ids by
(block, sequence)), and every id that fails to parse is mapped to the
sentinel `(999, 999, 999)`, which sorts strictly after every parsed key. -/
theorem claim_C5_ordinal_walk :
    (∀ z : Int, extractCitationSortKey (planIdStr z) = (0, 0, z)) ∧
    (∀ b k : Nat, extractCitationSortKey (citIdStr (b : Int) (k : Int))
        = (1, (b : Int), (k : Int))) ∧
    (∀ (n : Int) (b k : Nat),
      keyLTb (extractCitationSortKey (planIdStr n))
          (extractCitationSortKey (citIdStr (b : Int) (k : Int))) = true) ∧
    (∀ cid : String,
      (∃ n, extractCitationSortKey cid = (0, 0, n)) ∨
      (∃ b n, extractCitationSortKey cid = (1, b, n)) ∨
      extractCitationSortKey cid = (999, 999, 999)) ∧
    (∀ cid : String, extractCitationSortKey cid ≠ (999, 999, 999) →
      keyLTb (extractCitationSortKey cid) (999, 999, 999) = true) ∧
    (∀ cits : List (String × Citation),
      List.Sorted citLE (sortedCitationIds cits) ∧
      (sortedCitationIds cits).Perm (cits.map Prod.fst)) ∧
    (∀ cits : List (String × Citation),
      freshNums (refTrace cits) = List.range' 1 (buildRefState cits).ref_idx) := by
  refine ⟨extractCitationSortKey_planId, extractCitationSortKey_citId, ?_, ?_, ?_, ?_,
    freshNums_refTrace⟩
  · intro n b k
    rw [extractCitationSortKey_planId, extractCitationSortKey_citId]
    unfold keyLTb
    rw [decide_eq_true_eq]
    left
    norm_num
  · exact extractCitationSortKey_cases
  · intro cid hne
    rcases extractCitationSortKey_cases cid with ⟨n, h⟩ | ⟨b, n, h⟩ | h
    · rw [h]
      unfold keyLTb
      rw [decide_eq_true_eq]
      left
      norm_num
    · rw [h]
      unfold keyLTb
      rw [decide_eq_true_eq]
      left
      norm_num
    · exact absurd h hne
  · intro cits
    exact ⟨List.sorted_insertionSort citLE (cits.map Prod.fst),
      List.perm_insertionSort citLE (cits.map Prod.fst)⟩

/-- C5 witness: the sort-key and ordinal facts at concrete inputs — the
sentinel comparison for an unparseable id, and the fresh ordinals `1..4`
of the fixture table's build walk. -/
theorem claim_C5_witness :
    keyLTb (extractCitationSortKey "PLAN-03") (999, 999, 999) = true ∧
    freshNums (refTrace fixtureTable) = List.range' 1 (buildRefState fixtureTable).ref_idx :=
  ⟨claim_C5_ordinal_walk.2.2.2.2.1 "PLAN-03" (by decide),
   claim_C5_ordinal_walk.2.2.2.2.2.2 fixtureTable⟩

/-- C8: with a store containing exactly `CIT-1-01`, validating
`"see [[CIT-1-01]] and [[CIT-9-99]]"` reports the known marker valid, the
unknown one invalid, `is_valid = false` and `total_found = 2`; in general a
found marker is classified valid exactly when its id is stored, invalid
exactly when it is not, `total_found` counts all matches, and `is_valid`
holds exactly when no invalid marker was found. -/
theorem claim_C8_validation :
    (validateCitationReferences fixtureStoreOne "see [[CIT-1-01]] and [[CIT-9-99]]"
      = { valid_citations := ["CIT-1-01"], invalid_citations := ["CIT-9-99"],
          is_valid := false, total_found := 2 }) ∧
    (∀ (s : CMState) (text : String) (r : String),
      (r ∈ (validateCitationReferences s text).valid_citations ↔
        r ∈ findMarkers text ∧ citationExists s r = true) ∧
      (r ∈ (validateCitationReferences s text).invalid_citations ↔
        r ∈ findMarkers text ∧ citationExists s r = false)) ∧
    (∀ (s : CMState) (text : String),
      (validateCitationReferences s text).total_found = (findMarkers text).length ∧
      ((validateCitationReferences s text).is_valid = true ↔
        (validateCitationReferences s text).invalid_citations = [])) := by
  refine ⟨by decide, ?_, ?_⟩
  · intro s text r
    constructor
    · unfold validateCitationReferences
      simp [List.mem_filter]
    · unfold validateCitationReferences
      simp [List.mem_filter]
  · intro s text
    refine ⟨rfl, ?_⟩
    unfold validateCitationReferences
    simp [List.length_eq_zero]

/-- C8 witness: the classification equivalence instantiated at the concrete
store, text and the marker `CIT-9-99`. -/
theorem claim_C8_witness :
    ("CIT-9-99" ∈ (validateCitationReferences fixtureStoreOne
        "see [[CIT-1-01]] and [[CIT-9-99]]").invalid_citations ↔
      "CIT-9-99" ∈ findMarkers "see [[CIT-1-01]] and [[CIT-9-99]]" ∧
        citationExists fixtureStoreOne "CIT-9-99" = false) :=
  (claim_C8_validation.2.1 fixtureStoreOne "see [[CIT-1-01]] and [[CIT-9-99]]"
    "CIT-9-99").2

/-- C10: `get_all_citations` and `get_ref_number_map` return copies: the
returned dictionary is a fresh object distinct from the store's own, it
holds the same contents, and overwriting the returned object's contents
(adding, removing or replacing entries) leaves the store's citation table
and its cached reference-number map unchanged. -/
theorem claim_C10_getters_return_copies :
    ∀ (hc : DictHeap (List (String × Citation))) (hr : DictHeap (List (String × Nat)))
      (st : StoreObj),
      st.citAddr < hc.cells.length →
      st.refMapAddr < hr.cells.length →
      ∀ (mutTbl : List (String × Citation)) (mutMap : List (String × Nat)),
        ((getAllCitationsHeap hc st).1 ≠ st.citAddr ∧
         (getAllCitationsHeap hc st).2.read (getAllCitationsHeap hc st).1
            = some ((hc.read st.citAddr).getD []) ∧
         (getAllCitationsHeap hc st).2.read st.citAddr = hc.read st.citAddr ∧
         ((getAllCitationsHeap hc st).2.write (getAllCitationsHeap hc st).1 mutTbl).read
              st.citAddr = hc.read st.citAddr) ∧
        ((getRefNumberMapHeap hc hr st).1
            ≠ (getRefNumberMapHeap hc hr st).2.2.refMapAddr ∧
         (getRefNumberMapHeap hc hr st).2.2.citAddr = st.citAddr ∧
         (getRefNumberMapHeap hc hr st).2.1.read (getRefNumberMapHeap hc hr st).1
            = (getRefNumberMapHeap hc hr st).2.1.read
                (getRefNumberMapHeap hc hr st).2.2.refMapAddr ∧
         ((getRefNumberMapHeap hc hr st).2.1.write (getRefNumberMapHeap hc hr st).1
              mutMap).read (getRefNumberMapHeap hc hr st).2.2.refMapAddr
            = (getRefNumberMapHeap hc hr st).2.1.read
                (getRefNumberMapHeap hc hr st).2.2.refMapAddr) := by
  intro hc hr st h1 h2 mutTbl mutMap
  constructor
  · have hfst : (getAllCitationsHeap hc st).1 = hc.cells.length := rfl
    refine ⟨by rw [hfst]; omega, ?_, ?_, ?_⟩
    · rw [hfst]
      unfold getAllCitationsHeap DictHeap.alloc DictHeap.read
      exact List.getElem?_concat_length _ _
    · unfold getAllCitationsHeap DictHeap.alloc DictHeap.read
      rw [List.getElem?_append]
      rw [if_pos h1]
    · unfold getAllCitationsHeap DictHeap.alloc DictHeap.read DictHeap.write
      rw [List.getElem?_set_ne (by simp only []; omega)]
      rw [List.getElem?_append]
      rw [if_pos h1]
  · unfold getRefNumberMapHeap
    by_cases hcur : ((hr.read st.refMapAddr).getD []).isEmpty = true
    · simp only [hcur, if_true]
      unfold DictHeap.alloc DictHeap.read DictHeap.write
      simp only [List.length_append, List.length_singleton]
      have e1 : ∀ m : List (String × Nat),
          ((hr.cells ++ [m]) ++ [m])[hr.cells.length + 1]? = some m := by
        intro m
        rw [show hr.cells.length + 1 = (hr.cells ++ [m]).length by simp]
        exact List.getElem?_concat_length _ _
      have e2 : ∀ m : List (String × Nat),
          ((hr.cells ++ [m]) ++ [m])[hr.cells.length]? = some m := by
        intro m
        rw [List.getElem?_append, if_pos (by simp)]
        exact List.getElem?_concat_length _ _
      refine ⟨by show hr.cells.length + 1 ≠ hr.cells.length; omega, trivial, ?_, ?_⟩
      · rw [e1, e2]
      · rw [List.getElem?_set_ne (by omega), e2]
    · simp only [hcur, Bool.false_eq_true, if_false]
      unfold DictHeap.alloc DictHeap.read DictHeap.write
      obtain ⟨v, hv⟩ : ∃ v, hr.cells[st.refMapAddr]? = some v :=
        ⟨hr.cells[st.refMapAddr], List.getElem?_eq_getElem h2⟩
      refine ⟨by show hr.cells.length ≠ st.refMapAddr; omega, trivial, ?_, ?_⟩
      · rw [hv, List.getElem?_concat_length, List.getElem?_append, if_pos h2, hv]
        rfl
      · rw [List.getElem?_set_ne (by show hr.cells.length ≠ st.refMapAddr; omega)]

/-- C10 witness: the copy semantics at a concrete one-cell heap — mutating
the returned table does not change the stored table. -/
theorem claim_C10_witness :
    ((getAllCitationsHeap ⟨[[("CIT-1-01", fixtureCit)]]⟩ ⟨0, 0⟩).1 ≠ 0 ∧
     (getAllCitationsHeap ⟨[[("CIT-1-01", fixtureCit)]]⟩ ⟨0, 0⟩).2.read
        (getAllCitationsHeap ⟨[[("CIT-1-01", fixtureCit)]]⟩ ⟨0, 0⟩).1
       = some (((⟨[[("CIT-1-01", fixtureCit)]]⟩ : DictHeap _).read 0).getD []) ∧
     (getAllCitationsHeap ⟨[[("CIT-1-01", fixtureCit)]]⟩ ⟨0, 0⟩).2.read 0
       = (⟨[[("CIT-1-01", fixtureCit)]]⟩ : DictHeap _).read 0 ∧
     ((getAllCitationsHeap ⟨[[("CIT-1-01", fixtureCit)]]⟩ ⟨0, 0⟩).2.write
          (getAllCitationsHeap ⟨[[("CIT-1-01", fixtureCit)]]⟩ ⟨0, 0⟩).1 []).read 0
       = (⟨[[("CIT-1-01", fixtureCit)]]⟩ : DictHeap _).read 0) :=
  (claim_C10_getters_return_copies ⟨[[("CIT-1-01", fixtureCit)]]⟩ ⟨[[]]⟩ ⟨0, 0⟩
    (by decide) (by decide) [] []).1

end CitationMgr

